import Mathlib

/-!
Verification of the frame-resource rotation and dirty-constant synchronization
protocol of the DirectXGraphics repository (LitColumnsApp.cpp, two variants:
`Assigment #1/Assigment #1/Project` and `Assigment #1/Lab# 5/Project`).

The embedding models:
* the per-entity dirty counters and the per-frame constant-buffer refresh loops
  (`UpdateObjectCBs`, `UpdateMaterialCBs`, `UpdateMainPassCB`),
* the frame-resource ring (3 `FrameResource`s, cursor advanced modulo 3 in
  `Update`, fence bookkeeping in `Draw`),
* the fence wait of `Update` and the event order of one rendered frame
  (`Update` followed by `Draw`), and
* the object/material index layout built by `BuildRenderItems` /
  `BuildMaterials` / `BuildFrameResources` of the `Assigment #1` variant.

Matrix entries are modelled as integers: the protocol only stores, transposes
and copies matrix values (`XMStoreFloat4x4`/`XMMatrixTranspose` move entries
without arithmetic on them), so the exact scalar type is irrelevant to every
claim and an exact carrier avoids floating-point modelling.
-/

namespace DXG

/-- `const int gNumFrameResources = 3;` (LitColumnsApp.cpp line 18, both
variants): the depth of the frame-resource ring. -/
def gNumFrameResources : Nat := 3

/-- A 4x4 matrix of scalar entries (`XMFLOAT4X4`); entries are modelled as
integers since the protocol only copies and transposes them. -/
def Float4x4 := Fin 4 → Fin 4 → Int

instance : DecidableEq Float4x4 :=
  inferInstanceAs (DecidableEq (Fin 4 → Fin 4 → Int))

/-- `MathHelper::Identity4x4()`: the identity matrix, the default value of a
`RenderItem`'s `World` and `TexTransform`. -/
def Identity4x4 : Float4x4 := fun i j => if i = j then 1 else 0

/-- `XMMatrixTranspose`: transposition, applied by the refresh loops before a
record is copied into an upload buffer. -/
def XMMatrixTranspose (m : Float4x4) : Float4x4 := fun i j => m j i

/-- A 4-component vector (`XMFLOAT4`), entries modelled as integers. -/
def Float4 := Fin 4 → Int

instance : DecidableEq Float4 := inferInstanceAs (DecidableEq (Fin 4 → Int))

/-- A 3-component vector (`XMFLOAT3`), entries modelled as integers. -/
def Float3 := Fin 3 → Int

instance : DecidableEq Float3 := inferInstanceAs (DecidableEq (Fin 3 → Int))

/-- The object constant record. The type lives in `FrameResource.h` (not under
`src/`); its two fields are exactly the ones written by `UpdateObjectCBs`
(lines 369-371 of the `Assigment #1` variant): a transposed `World` and a
transposed `TexTransform`. -/
structure ObjectConstants where
  World : Float4x4
  TexTransform : Float4x4
deriving DecidableEq

instance : Inhabited ObjectConstants := ⟨⟨Identity4x4, Identity4x4⟩⟩

/-- The material constant record. The type lives in `FrameResource.h` (not
under `src/`); its fields are exactly the ones written by `UpdateMaterialCBs`
(lines 393-397): albedo, Fresnel term, roughness, transposed transform. -/
structure MaterialConstants where
  DiffuseAlbedo : Float4
  FresnelR0 : Float3
  Roughness : Int
  MatTransform : Float4x4
deriving DecidableEq

instance : Inhabited MaterialConstants :=
  ⟨⟨fun _ => 0, fun _ => 0, 0, Identity4x4⟩⟩

/-- The per-pass constant record (`PassConstants`, `FrameResource.h`, not under
`src/`). Its many camera/lighting fields are computed by float arithmetic in
`UpdateMainPassCB` and never read back by the protocol; the record is
abstracted to an opaque payload because every claim only concerns the single
`CopyData(0, ...)` call that stores it. -/
structure PassConstants where
  payload : Nat
deriving DecidableEq

instance : Inhabited PassConstants := ⟨⟨0⟩⟩

/-- `struct RenderItem` (LitColumnsApp.cpp lines 22-52, identical in both
variants). `Mat` and `Geo` are raw pointers to shared material/geometry;
they are modelled as numeric identifiers. Field defaults mirror the member
initializers: identity matrices, `NumFramesDirty = gNumFrameResources`,
`ObjCBIndex = (UINT)-1`. -/
structure RenderItem where
  World : Float4x4 := Identity4x4
  TexTransform : Float4x4 := Identity4x4
  NumFramesDirty : Int := gNumFrameResources
  ObjCBIndex : Nat := 4294967295
  Mat : Nat := 0
  Geo : Nat := 0
  IndexCount : Nat := 0
  StartIndexLocation : Nat := 0
  BaseVertexLocation : Int := 0
deriving DecidableEq

/-- `struct Material` (d3dUtil.h, not under `src/`). Modelled from the spec
("SharedMaterial ... its own framesDirty counter with the same semantics")
and from the fields the source reads and writes (`BuildMaterials`,
`UpdateMaterialCBs`, `AnimateMaterials`): name (modelled as a numeric id),
constant-buffer index, SRV heap index, shading parameters, transform and the
dirty counter initialized to `gNumFrameResources`. -/
structure Material where
  Name : Nat := 0
  MatCBIndex : Nat := 4294967295
  DiffuseSrvHeapIndex : Nat := 4294967295
  DiffuseAlbedo : Float4 := fun _ => 1
  FresnelR0 : Float3 := fun _ => 0
  Roughness : Int := 0
  MatTransform : Float4x4 := Identity4x4
  NumFramesDirty : Int := gNumFrameResources
deriving DecidableEq

/-- Modelled from the spec: `UploadBuffer<T>` (Common/UploadBuffer.h, not under
`src/`) owns a contiguous array of `capacity` records of one kind;
`CopyData(index, record)` writes `record` at element `index` and requires
`0 <= index < capacity` (out-of-range is a programming error). The mapped
region is modelled as a list whose length is the capacity. -/
structure UploadBuffer (T : Type) where
  data : List T
deriving DecidableEq

namespace UploadBuffer

/-- The element capacity fixed at construction. -/
def capacity (b : UploadBuffer T) : Nat := b.data.length

/-- `CopyData(index, record)`: writes the record at element `index`. Modelled
totally via `List.set` (which leaves the buffer unchanged out of range); the
source's precondition is `copyDataOk`. -/
def CopyData (b : UploadBuffer T) (i : Nat) (x : T) : UploadBuffer T :=
  ⟨b.data.set i x⟩

/-- The precondition of `CopyData` stated by the spec: the index is in range. -/
def copyDataOk (b : UploadBuffer T) (i : Nat) : Prop := i < b.capacity

instance (b : UploadBuffer T) (i : Nat) : Decidable (b.copyDataOk i) :=
  inferInstanceAs (Decidable (i < b.capacity))

/-- Reading element `i` of the mapped region (a specification-side observer;
the device reads the region during draws). -/
def read (b : UploadBuffer T) (i : Nat) : Option T := b.data.get? i

/-- A fresh buffer of the given capacity, as built by the `UploadBuffer`
constructor called from `FrameResource`'s constructor. -/
def create (T : Type) [Inhabited T] (cap : Nat) : UploadBuffer T :=
  ⟨List.replicate cap default⟩

theorem capacity_CopyData (b : UploadBuffer T) (i : Nat) (x : T) :
    (b.CopyData i x).capacity = b.capacity := by
  simp [capacity, CopyData]

theorem capacity_create (T : Type) [Inhabited T] (cap : Nat) :
    (create T cap).capacity = cap := by
  simp [capacity, create]

theorem read_CopyData_ne (b : UploadBuffer T) (i j : Nat) (x : T) (h : i ≠ j) :
    (b.CopyData i x).read j = b.read j := by
  simp [read, CopyData, List.get?_eq_getElem?, List.getElem?_set_ne h]

theorem read_CopyData_eq (b : UploadBuffer T) (i : Nat) (x : T)
    (h : i < b.capacity) : (b.CopyData i x).read i = some x := by
  simp [read, CopyData, List.get?_eq_getElem?]
  exact List.getElem?_set_self (by exact h)

end UploadBuffer

/-- The shape common to the two dirty-propagation loops: how to read an
entity's dirty counter, decrement it, obtain its constant-buffer index and
build its GPU-ready record. `UpdateObjectCBs` and `UpdateMaterialCBs`
instantiate this with `RenderItem`/`ObjectConstants` and
`Material`/`MaterialConstants` respectively. -/
structure DirtyKind (E R : Type) where
  dirty : E → Int
  decr : E → E
  index : E → Nat
  record : E → R

/-- One loop iteration of a refresh pass (the body of the `for` loop in
`UpdateObjectCBs` lines 360-378 / `UpdateMaterialCBs` lines 384-404): if the
entity's dirty counter is positive, copy its record at its index and decrement
the counter; otherwise do nothing. -/
def refreshIfDirty (K : DirtyKind E R) (e : E) (buf : UploadBuffer R) :
    E × UploadBuffer R :=
  if 0 < K.dirty e then (K.decr e, buf.CopyData (K.index e) (K.record e))
  else (e, buf)

/-- A whole refresh pass: the loop over all entities in order, threading the
current frame resource's upload buffer through each iteration. -/
def refreshPass (K : DirtyKind E R) :
    List E → UploadBuffer R → List E × UploadBuffer R
  | [], buf => ([], buf)
  | e :: es, buf =>
    let p := refreshIfDirty K e buf
    let q := refreshPass K es p.2
    (p.1 :: q.1, q.2)

/-- The effect of one pass on a single entity (pure part of
`refreshIfDirty`). -/
def refreshEntity (K : DirtyKind E R) (e : E) : E :=
  if 0 < K.dirty e then K.decr e else e

/-- The sequence of `CopyData` calls (index, record) a refresh pass makes on
the given entity list, in loop order. It depends only on the entities. -/
def callLog (K : DirtyKind E R) : List E → List (Nat × R)
  | [] => []
  | e :: es =>
    (if 0 < K.dirty e then [(K.index e, K.record e)] else []) ++ callLog K es

/-- Replaying a sequence of `CopyData` calls on a buffer. -/
def applyWrites (ws : List (Nat × R)) (buf : UploadBuffer R) : UploadBuffer R :=
  ws.foldl (fun b w => b.CopyData w.1 w.2) buf

theorem refreshIfDirty_fst (K : DirtyKind E R) (e : E) (buf : UploadBuffer R) :
    (refreshIfDirty K e buf).1 = refreshEntity K e := by
  unfold refreshIfDirty refreshEntity; split <;> rfl

theorem refreshIfDirty_snd (K : DirtyKind E R) (e : E) (buf : UploadBuffer R) :
    (refreshIfDirty K e buf).2 = applyWrites (callLog K [e]) buf := by
  by_cases h : 0 < K.dirty e <;> simp [refreshIfDirty, callLog, applyWrites, h]

theorem applyWrites_append (ws vs : List (Nat × R)) (buf : UploadBuffer R) :
    applyWrites (ws ++ vs) buf = applyWrites vs (applyWrites ws buf) := by
  simp [applyWrites, List.foldl_append]

theorem refreshPass_fst (K : DirtyKind E R) (es : List E)
    (buf : UploadBuffer R) :
    (refreshPass K es buf).1 = es.map (refreshEntity K) := by
  induction es generalizing buf with
  | nil => rfl
  | cons e es ih =>
    simp only [refreshPass, List.map_cons, ih, refreshIfDirty_fst]

theorem refreshPass_snd (K : DirtyKind E R) (es : List E)
    (buf : UploadBuffer R) :
    (refreshPass K es buf).2 = applyWrites (callLog K es) buf := by
  induction es generalizing buf with
  | nil => rfl
  | cons e es ih =>
    show (refreshPass K es (refreshIfDirty K e buf).2).2 = _
    rw [ih, refreshIfDirty_snd, ← applyWrites_append]
    simp [callLog]

theorem callLog_append (K : DirtyKind E R) (xs ys : List E) :
    callLog K (xs ++ ys) = callLog K xs ++ callLog K ys := by
  induction xs with
  | nil => rfl
  | cons x xs ih => simp [callLog, ih]

theorem callLog_mem (K : DirtyKind E R) (es : List E) (w : Nat × R)
    (hw : w ∈ callLog K es) :
    ∃ a ∈ es, 0 < K.dirty a ∧ w = (K.index a, K.record a) := by
  induction es with
  | nil => cases hw
  | cons e es ih =>
    simp only [callLog, List.mem_append] at hw
    rcases hw with hw | hw
    · refine ⟨e, List.mem_cons_self e es, ?_⟩
      by_cases h : 0 < K.dirty e <;> simp [h] at hw
      exact ⟨h, hw⟩
    · obtain ⟨a, ha, hd, rfl⟩ := ih hw
      exact ⟨a, List.mem_cons_of_mem _ ha, hd, rfl⟩

theorem capacity_applyWrites (ws : List (Nat × R)) (buf : UploadBuffer R) :
    (applyWrites ws buf).capacity = buf.capacity := by
  induction ws generalizing buf with
  | nil => rfl
  | cons w ws ih =>
    show (applyWrites ws (buf.CopyData w.1 w.2)).capacity = _
    rw [ih, UploadBuffer.capacity_CopyData]

theorem read_applyWrites_of_not_written (ws : List (Nat × R))
    (buf : UploadBuffer R) (i : Nat) (h : ∀ w ∈ ws, w.1 ≠ i) :
    (applyWrites ws buf).read i = buf.read i := by
  induction ws generalizing buf with
  | nil => rfl
  | cons w ws ih =>
    show (applyWrites ws (buf.CopyData w.1 w.2)).read i = _
    rw [ih _ fun v hv => h v (List.mem_cons_of_mem _ hv),
      UploadBuffer.read_CopyData_ne _ _ _ _ (h w (List.mem_cons_self w ws))]

theorem read_applyWrites_last (ws vs : List (Nat × R)) (buf : UploadBuffer R)
    (i : Nat) (x : R) (hi : i < buf.capacity) (h : ∀ w ∈ vs, w.1 ≠ i) :
    (applyWrites (ws ++ (i, x) :: vs) buf).read i = some x := by
  rw [show ws ++ (i, x) :: vs = (ws ++ [(i, x)]) ++ vs by simp,
    applyWrites_append, read_applyWrites_of_not_written _ _ _ h,
    applyWrites_append]
  exact UploadBuffer.read_CopyData_eq _ _ _
    (by rw [capacity_applyWrites]; exact hi)

/-- The instantiation of the refresh scheme used by `UpdateObjectCBs`
(lines 357-379 of the `Assigment #1` variant, lines 417-439 of the `Lab# 5`
variant, identical): a render item's counter is `NumFramesDirty`, its index is
`ObjCBIndex` and its record transposes `World` and `TexTransform`. -/
def objKind : DirtyKind RenderItem ObjectConstants where
  dirty e := e.NumFramesDirty
  decr e := { e with NumFramesDirty := e.NumFramesDirty - 1 }
  index e := e.ObjCBIndex
  record e :=
    { World := XMMatrixTranspose e.World
      TexTransform := XMMatrixTranspose e.TexTransform }

/-- The instantiation of the refresh scheme used by `UpdateMaterialCBs`
(lines 381-405 / 441-465, identical in both variants). -/
def matKind : DirtyKind Material MaterialConstants where
  dirty m := m.NumFramesDirty
  decr m := { m with NumFramesDirty := m.NumFramesDirty - 1 }
  index m := m.MatCBIndex
  record m :=
    { DiffuseAlbedo := m.DiffuseAlbedo
      FresnelR0 := m.FresnelR0
      Roughness := m.Roughness
      MatTransform := XMMatrixTranspose m.MatTransform }

/-- `LitColumnsApp::UpdateObjectCBs`: iterates over `mAllRitems` in order and
refreshes each dirty item into the current frame resource's object buffer. -/
def UpdateObjectCBs (items : List RenderItem)
    (currObjectCB : UploadBuffer ObjectConstants) :
    List RenderItem × UploadBuffer ObjectConstants :=
  refreshPass objKind items currObjectCB

/-- `LitColumnsApp::UpdateMaterialCBs`: iterates over `mMaterials` and
refreshes each dirty material into the current material buffer. -/
def UpdateMaterialCBs (mats : List Material)
    (currMaterialCB : UploadBuffer MaterialConstants) :
    List Material × UploadBuffer MaterialConstants :=
  refreshPass matKind mats currMaterialCB

/-- `LitColumnsApp::UpdateMainPassCB` (lines 407-440): recomputes the pass
record (float arithmetic on camera/lighting state, abstracted into the `pass`
argument) and unconditionally stores it at element 0 of the current pass
buffer (`currPassCB->CopyData(0, mMainPassCB)`, line 439). -/
def UpdateMainPassCB (pass : PassConstants)
    (currPassCB : UploadBuffer PassConstants) : UploadBuffer PassConstants :=
  currPassCB.CopyData 0 pass

/-- Marking a render item dirty after its authoritative data changed: the
pattern prescribed by the `RenderItem` comment (lines 33-36: "when we modify
obect data we should set `NumFramesDirty = gNumFrameResources`"). -/
def RenderItem.markDirty (e : RenderItem) : RenderItem :=
  { e with NumFramesDirty := (gNumFrameResources : Int) }

/-- Marking a material dirty after an edit:
`waterMat->NumFramesDirty = gNumFrameResources` (`Lab# 5`
`AnimateMaterials`, line 414). -/
def Material.markDirty (m : Material) : Material :=
  { m with NumFramesDirty := (gNumFrameResources : Int) }

/-- `struct FrameResource` (FrameResource.h/.cpp, not under `src/`). Modelled
from the spec ("Holds: one command-allocator handle ..., one UploadRingBuffer
per constant kind, and `lastSubmittedFence: u64` (0 = never submitted)") and
from the fields the source uses: `PassCB`/`ObjectCB`/`MaterialCB`
(Update/Draw), `Fence` (Update line 216, Draw line 279). The opaque
command-allocator handle carries no state any claim observes and is not
modelled as data; its reset appears as an event in `frameEvents`. -/
structure FrameResource where
  PassCB : UploadBuffer PassConstants
  ObjectCB : UploadBuffer ObjectConstants
  MaterialCB : UploadBuffer MaterialConstants
  Fence : Nat
deriving DecidableEq

instance : Inhabited FrameResource := ⟨⟨⟨[]⟩, ⟨[]⟩, ⟨[]⟩, 0⟩⟩

/-- The `FrameResource` constructor as invoked by `BuildFrameResources`
(lines 816-823): fresh buffers with capacities (`passCount = 1`,
`objectCount = mAllRitems.size()`, `materialCount = mMaterials.size()`) and
`Fence = 0`. -/
def FrameResource.create (passCount objectCount materialCount : Nat) :
    FrameResource where
  PassCB := UploadBuffer.create PassConstants passCount
  ObjectCB := UploadBuffer.create ObjectConstants objectCount
  MaterialCB := UploadBuffer.create MaterialConstants materialCount
  Fence := 0

/-- The CPU-side state the protocol manipulates: the ring of frame resources,
the cursor `mCurrFrameResourceIndex`, the scene lists and the global fence
counter `mCurrentFence`. `mMaterials` is an `unordered_map` in the source;
it is modelled as the list of its values in iteration order (each material is
visited exactly once per frame, which is all the claims depend on). -/
structure AppState where
  mFrameResources : List FrameResource
  mCurrFrameResourceIndex : Nat
  mAllRitems : List RenderItem
  mMaterials : List Material
  mCurrentFence : Nat
deriving DecidableEq

/-- The slot selected by `Update` (line 211):
`mCurrFrameResourceIndex = (mCurrFrameResourceIndex + 1) % gNumFrameResources`. -/
def acquireIndex (s : AppState) : Nat :=
  (s.mCurrFrameResourceIndex + 1) % gNumFrameResources

/-- The frame resource the acquired cursor designates (`mCurrFrameResource`,
line 212). -/
def currFrameResource (s : AppState) : FrameResource :=
  s.mFrameResources.getD (acquireIndex s) default

/-- The wait guard of `Update` (line 216):
`mCurrFrameResource->Fence != 0 && mFence->GetCompletedValue() < mCurrFrameResource->Fence`. -/
def fenceWaitNeeded (slotFence completed : Nat) : Bool :=
  slotFence != 0 && completed < slotFence

/-- One rendered frame's effect on the CPU state: the message loop runs
`Update(gt)` then `Draw(gt)` (the D3DApp framework, outside `src/`; `Draw`
reads `mCurrFrameResource`, which `Update` sets, so this is the only possible
order). `Update` advances the cursor, waits if needed (no CPU-state change),
and runs the three constant refreshes against the acquired slot's buffers;
`Draw` records and submits the command list and then sets
`mCurrFrameResource->Fence = ++mCurrentFence` (line 279) before signalling.
The per-frame pass record (camera/lighting float math) is the `pass`
argument. -/
def frameStep (s : AppState) (pass : PassConstants) : AppState :=
  let idx := acquireIndex s
  let fr := currFrameResource s
  let obj := UpdateObjectCBs s.mAllRitems fr.ObjectCB
  let mat := UpdateMaterialCBs s.mMaterials fr.MaterialCB
  let passCB := UpdateMainPassCB pass fr.PassCB
  let newFence := s.mCurrentFence + 1
  { mFrameResources := s.mFrameResources.set idx
      { PassCB := passCB, ObjectCB := obj.2, MaterialCB := mat.2
        Fence := newFence }
    mCurrFrameResourceIndex := idx
    mAllRitems := obj.1
    mMaterials := mat.1
    mCurrentFence := newFence }

/-- Running a sequence of frames, one per entry of the pass-record list. -/
def runFrames (s : AppState) : List PassConstants → AppState
  | [] => s
  | p :: ps => runFrames (frameStep s p) ps

/-- The observable events of one rendered frame, used to state ordering
claims. -/
inductive FrameEv where
  | acquire (slot : Nat)
  | waitForFence (fence : Nat)
  | writeObj (idx : Nat)
  | writeMat (idx : Nat)
  | writePass (idx : Nat)
  | allocReset (slot : Nat)
  | submit (slot : Nat)
  | signalFence (slot : Nat) (value : Nat)
deriving DecidableEq

/-- The events of one rendered frame after the acquire and the optional wait,
in source order: the `CopyData` calls of `UpdateObjectCBs` (line 373),
`UpdateMaterialCBs` (line 399) and `UpdateMainPassCB` (line 439) during
`Update`, then in `Draw` the command-allocator reset
(`cmdListAlloc->Reset()`, line 236), the submission (`ExecuteCommandLists`,
line 272) and the fence signal
(`mCurrFrameResource->Fence = ++mCurrentFence; mCommandQueue->Signal(...)`,
lines 279-284). -/
def frameTail (s : AppState) : List FrameEv :=
  (callLog objKind s.mAllRitems).map (fun w => FrameEv.writeObj w.1)
    ++ (callLog matKind s.mMaterials).map (fun w => FrameEv.writeMat w.1)
    ++ [FrameEv.writePass 0]
    ++ [FrameEv.allocReset (acquireIndex s), FrameEv.submit (acquireIndex s),
        FrameEv.signalFence (acquireIndex s) (s.mCurrentFence + 1)]

/-- The event sequence of one rendered frame (`Update` then `Draw`), in source
order: cursor advance (line 211), the fence wait if the guard at line 216
holds, then `frameTail`. `completed` is the device's completed fence value
observed at the wait guard. -/
def frameEvents (s : AppState) (completed : Nat) : List FrameEv :=
  FrameEv.acquire (acquireIndex s) ::
    ((if fenceWaitNeeded (currFrameResource s).Fence completed then
        [FrameEv.waitForFence (currFrameResource s).Fence] else [])
      ++ frameTail s)

theorem frameStep_items (s : AppState) (p : PassConstants) :
    (frameStep s p).mAllRitems = s.mAllRitems.map (refreshEntity objKind) := by
  simp [frameStep, UpdateObjectCBs, refreshPass_fst]

theorem frameStep_mats (s : AppState) (p : PassConstants) :
    (frameStep s p).mMaterials = s.mMaterials.map (refreshEntity matKind) := by
  simp [frameStep, UpdateMaterialCBs, refreshPass_fst]

theorem frameStep_cursor (s : AppState) (p : PassConstants) :
    (frameStep s p).mCurrFrameResourceIndex = acquireIndex s := rfl

theorem frameStep_fence (s : AppState) (p : PassConstants) :
    (frameStep s p).mCurrentFence = s.mCurrentFence + 1 := rfl

theorem frameStep_slots_length (s : AppState) (p : PassConstants) :
    (frameStep s p).mFrameResources.length = s.mFrameResources.length := by
  simp [frameStep]

theorem frameStep_slot_other (s : AppState) (p : PassConstants) (m : Nat)
    (hm : m ≠ acquireIndex s) :
    (frameStep s p).mFrameResources.get? m = s.mFrameResources.get? m := by
  simp only [frameStep, List.get?_eq_getElem?]
  rw [List.getElem?_set_ne (fun h => hm h.symm)]

theorem frameStep_slot_acquired (s : AppState) (p : PassConstants)
    (h : acquireIndex s < s.mFrameResources.length) :
    (frameStep s p).mFrameResources.get? (acquireIndex s) =
      some
        { PassCB := UpdateMainPassCB p (currFrameResource s).PassCB
          ObjectCB := (UpdateObjectCBs s.mAllRitems
            (currFrameResource s).ObjectCB).2
          MaterialCB := (UpdateMaterialCBs s.mMaterials
            (currFrameResource s).MaterialCB).2
          Fence := s.mCurrentFence + 1 } := by
  simp only [frameStep, List.get?_eq_getElem?]
  rw [List.getElem?_set_self h]

theorem runFrames_cons (s : AppState) (p : PassConstants)
    (ps : List PassConstants) :
    runFrames s (p :: ps) = runFrames (frameStep s p) ps := rfl

theorem runFrames_items (s : AppState) (ps : List PassConstants) :
    (runFrames s ps).mAllRitems =
      s.mAllRitems.map ((refreshEntity objKind)^[ps.length]) := by
  induction ps generalizing s with
  | nil => simp [runFrames]
  | cons p ps ih =>
    rw [runFrames_cons, ih, frameStep_items, List.map_map]
    simp [Function.iterate_succ_apply, Function.comp]

theorem runFrames_mats (s : AppState) (ps : List PassConstants) :
    (runFrames s ps).mMaterials =
      s.mMaterials.map ((refreshEntity matKind)^[ps.length]) := by
  induction ps generalizing s with
  | nil => simp [runFrames]
  | cons p ps ih =>
    rw [runFrames_cons, ih, frameStep_mats, List.map_map]
    simp [Function.iterate_succ_apply, Function.comp]

theorem runFrames_cursor (s : AppState) (p : PassConstants)
    (ps : List PassConstants) :
    (runFrames s (p :: ps)).mCurrFrameResourceIndex =
      (s.mCurrFrameResourceIndex + ps.length + 1) % gNumFrameResources := by
  induction ps generalizing s p with
  | nil => simp [runFrames, frameStep_cursor, acquireIndex]
  | cons q ps ih =>
    rw [runFrames_cons, ih, frameStep_cursor]
    simp only [acquireIndex, gNumFrameResources, List.length_cons]
    omega

theorem runFrames_slots_length (s : AppState) (ps : List PassConstants) :
    (runFrames s ps).mFrameResources.length = s.mFrameResources.length := by
  induction ps generalizing s with
  | nil => rfl
  | cons p ps ih => rw [runFrames_cons, ih, frameStep_slots_length]

/-- The fence-level state of the per-frame protocol: cursor, each slot's last
submitted fence (`FrameResource::Fence`, 0 = never submitted), the global
counter `mCurrentFence`, the device's completed fence value as observed by the
CPU (`mFence->GetCompletedValue()`), and the number of frames rendered so
far. -/
structure ProtoState where
  cursor : Nat
  fences : Nat → Nat
  counter : Nat
  completed : Nat
  frames : Nat

/-- The slot `Update` selects (line 211); only slots `0, 1, 2` are ever
designated. -/
def acquiredSlot (s : ProtoState) : Nat :=
  (s.cursor + 1) % gNumFrameResources

/-- The fence-level successor state of one frame whose post-wait observed
completed value is `c'`: cursor advanced, the acquired slot's fence set to
`++mCurrentFence` (Draw line 279), counter incremented, one more frame. -/
def protoNext (s : ProtoState) (c' : Nat) : ProtoState where
  cursor := (s.cursor + 1) % gNumFrameResources
  fences := Function.update s.fences (acquiredSlot s) (s.counter + 1)
  counter := s.counter + 1
  completed := c'
  frames := s.frames + 1

/-- One frame of the fence-level protocol. The device retires work
asynchronously, so the completed value `c'` observed after the wait is any
value that is monotone (`hmono`), no larger than what has been signalled
(`hbound`), and — this is what the wait of Update lines 216-222 establishes
before any of the slot's resources are touched — at least the acquired slot's
last submitted fence unless that slot was never submitted (`hwait`). -/
inductive protoStep : ProtoState → ProtoState → Prop
  | frame (s : ProtoState) (c' : Nat)
      (hmono : s.completed ≤ c') (hbound : c' ≤ s.counter)
      (hwait : s.fences (acquiredSlot s) = 0 ∨
        s.fences (acquiredSlot s) ≤ c') :
      protoStep s (protoNext s c')

/-- The state right after `Initialize`: cursor 0, no slot ever submitted, and
the initialization `FlushCommandQueue` has drained the queue, so the observed
completed value equals the counter (an arbitrary start value `c0`). -/
def initProto (c0 : Nat) : ProtoState :=
  { cursor := 0, fences := fun _ => 0, counter := c0, completed := c0
    frames := 0 }

/-- Fence-level states reachable from the post-initialization state. -/
def ProtoReachable (c0 : Nat) : ProtoState → Prop :=
  Relation.ReflTransGen protoStep (initProto c0)

theorem acquiredSlot_lt (s : ProtoState) :
    acquiredSlot s < gNumFrameResources :=
  Nat.mod_lt _ (by decide)

/-- The index of the first frame that submits slot `j` (frame `k` acquires
slot `k % 3`): slot 1 at frame 1, slot 2 at frame 2, slot 0 at frame 3. -/
def minFramesToSub (j : Nat) : Nat :=
  if j = 0 then gNumFrameResources else j

/-- The fence stored on slot `j` after `frames` frames when the counter
started at `c0`: 0 before the slot's first submission, afterwards `c0 + k`
where `k` is the most recent frame that acquired slot `j`. -/
def fenceVal (c0 frames j : Nat) : Nat :=
  if frames < minFramesToSub j then 0
  else c0 + (frames - ((frames + gNumFrameResources - j) % gNumFrameResources))

/-- The inductive invariant of the fence-level protocol. -/
def ProtoInv (c0 : Nat) (s : ProtoState) : Prop :=
  c0 ≤ s.completed ∧ s.completed ≤ s.counter ∧
  s.counter = c0 + s.frames ∧
  s.cursor = s.frames % gNumFrameResources ∧
  s.counter ≤ s.completed + gNumFrameResources ∧
  ∀ j < gNumFrameResources, s.fences j = fenceVal c0 s.frames j

theorem protoInv_init (c0 : Nat) : ProtoInv c0 (initProto c0) := by
  refine ⟨le_refl _, le_refl _, rfl, rfl, by simp [initProto,
    gNumFrameResources], fun j hj => ?_⟩
  simp only [initProto, fenceVal, minFramesToSub, gNumFrameResources] at *
  split_ifs <;> omega

theorem protoInv_step (c0 : Nat) (s s' : ProtoState) (hinv : ProtoInv c0 s)
    (hstep : protoStep s s') : ProtoInv c0 s' := by
  obtain ⟨h0, h1, h2, h3, h4, h5⟩ := hinv
  cases hstep with
  | frame c' hmono hbound hwait =>
    have h3' : s.cursor = s.frames % 3 := by
      simpa [gNumFrameResources] using h3
    have hacq : acquiredSlot s = (s.frames + 1) % 3 := by
      simp only [acquiredSlot, gNumFrameResources]
      omega
    have hF := h5 (acquiredSlot s) (acquiredSlot_lt s)
    refine ⟨le_trans h0 hmono, le_trans hbound (Nat.le_succ _), ?_, ?_,
      ?_, ?_⟩
    · simp only [protoNext]
      omega
    · simp only [protoNext, gNumFrameResources] at *
      omega
    · -- the in-flight bound: counter' ≤ completed' + 3
      rw [hF] at hwait
      simp only [protoNext, gNumFrameResources]
      revert hwait
      simp only [fenceVal, minFramesToSub, gNumFrameResources]
      split_ifs with hlt <;> intro hwait <;> rcases hwait with h | h <;> omega
    · -- the per-slot fence values
      intro j hj
      simp only [protoNext, gNumFrameResources] at hj ⊢
      by_cases hj' : j = acquiredSlot s
      · subst hj'
        rw [Function.update_same]
        simp only [fenceVal, minFramesToSub, gNumFrameResources]
        split_ifs <;> omega
      · rw [Function.update_noteq hj',
          h5 j (by simp only [gNumFrameResources]; omega)]
        have hne2 : j ≠ (s.frames + 1) % 3 := by
          rw [← hacq]; exact hj'
        simp only [fenceVal, minFramesToSub, gNumFrameResources]
        split_ifs <;> omega

theorem protoInv_reachable (c0 : Nat) (s : ProtoState)
    (h : ProtoReachable c0 s) : ProtoInv c0 s := by
  induction h with
  | refl => exact protoInv_init c0
  | tail hab hbc ih => exact protoInv_step c0 _ _ ih hbc

theorem refreshEntity_objKind_dirty_pos (e : RenderItem)
    (h : 0 < e.NumFramesDirty) :
    refreshEntity objKind e = { e with NumFramesDirty := e.NumFramesDirty - 1 } := by
  simp [refreshEntity, objKind, h]

theorem refreshEntity_objKind_clean (e : RenderItem)
    (h : ¬ 0 < e.NumFramesDirty) : refreshEntity objKind e = e := by
  simp [refreshEntity, objKind, h]

theorem refreshEntity_matKind_dirty_pos (m : Material)
    (h : 0 < m.NumFramesDirty) :
    refreshEntity matKind m = { m with NumFramesDirty := m.NumFramesDirty - 1 } := by
  simp [refreshEntity, matKind, h]

theorem refreshEntity_matKind_clean (m : Material)
    (h : ¬ 0 < m.NumFramesDirty) : refreshEntity matKind m = m := by
  simp [refreshEntity, matKind, h]

theorem iterate_refreshEntity_objKind (e : RenderItem) (k : Nat)
    (h : (k : Int) ≤ e.NumFramesDirty) :
    (refreshEntity objKind)^[k] e =
      { e with NumFramesDirty := e.NumFramesDirty - k } := by
  induction k generalizing e with
  | zero => simp
  | succ k ih =>
    rw [Function.iterate_succ_apply,
      refreshEntity_objKind_dirty_pos e (by push_cast at h; omega)]
    rw [ih _ (by simp; push_cast at h ⊢; omega)]
    simp only [RenderItem.mk.injEq, and_true, true_and]
    push_cast
    ring

theorem iterate_refreshEntity_matKind (m : Material) (k : Nat)
    (h : (k : Int) ≤ m.NumFramesDirty) :
    (refreshEntity matKind)^[k] m =
      { m with NumFramesDirty := m.NumFramesDirty - k } := by
  induction k generalizing m with
  | zero => simp
  | succ k ih =>
    rw [Function.iterate_succ_apply,
      refreshEntity_matKind_dirty_pos m (by push_cast at h; omega)]
    rw [ih _ (by simp; push_cast at h ⊢; omega)]
    simp only [Material.mk.injEq, and_true, true_and]
    push_cast
    ring

theorem objKind_record_refreshEntity (e : RenderItem) :
    objKind.record (refreshEntity objKind e) = objKind.record e := by
  by_cases h : 0 < e.NumFramesDirty
  · rw [refreshEntity_objKind_dirty_pos e h]
    rfl
  · rw [refreshEntity_objKind_clean e h]

theorem objKind_index_refreshEntity (e : RenderItem) :
    (refreshEntity objKind e).ObjCBIndex = e.ObjCBIndex := by
  by_cases h : 0 < e.NumFramesDirty
  · rw [refreshEntity_objKind_dirty_pos e h]
  · rw [refreshEntity_objKind_clean e h]

theorem matKind_index_refreshEntity (m : Material) :
    (refreshEntity matKind m).MatCBIndex = m.MatCBIndex := by
  by_cases h : 0 < m.NumFramesDirty
  · rw [refreshEntity_matKind_dirty_pos m h]
  · rw [refreshEntity_matKind_clean m h]

theorem callLog_singleton_dirty (K : DirtyKind E R) (e : E)
    (h : 0 < K.dirty e) :
    callLog K [e] = [(K.index e, K.record e)] := by
  simp [callLog, h]

theorem callLog_singleton_clean (K : DirtyKind E R) (e : E)
    (h : ¬ 0 < K.dirty e) : callLog K [e] = [] := by
  simp [callLog, h]

/-! ## The `Assigment #1` scene

`BuildRenderItems` (lines 883-1450 of the `Assigment #1` variant) pushes 96
render items into `mAllRitems`. Every claim in scope observes only the
constant-buffer index and the dirty counter of each built item, so the scene
embedding records each item's `ObjCBIndex` in push order; `World` and
`TexTransform` (hand-authored floating-point transforms never read by the
indexing claims) keep their default values, and `NumFramesDirty` keeps its
true default `gNumFrameResources`. -/

/-- The indices of the 12 individually constructed items, in push order:
box 0, centerCylinder 1, diamond 2, diamondLeft 3, cone 4, flagCylinder 5,
flagBox 6, door 7, moat 8, bridge 9, grid 10, skull 11 (lines 888-1020). -/
def a1SingleIndices : List Nat := [0, 1, 2, 3, 4, 5, 6, 7, 8, 9, 10, 11]

/-- Indices handed out by an `objCBIndex++` counter: `count` consecutive
values starting at `start`. -/
def countIndices (start count : Nat) : List Nat :=
  (List.range count).map (start + ·)

/-- All 96 `ObjCBIndex` values in `mAllRitems` push order: the 12 singles,
then the pyramid loop (`UINT objCBIndex = 12`, 8 iterations of 4 items,
lines 1030-1087), then the towers loop (`objCBIndex = 44`, 2 iterations of 26
items, lines 1091-1443). -/
def a1ObjIndices : List Nat :=
  a1SingleIndices ++ countIndices 12 32 ++ countIndices 44 52

/-- The six materials of `BuildMaterials` (lines 825-881) with their
`MatCBIndex` values; `Name` encodes 0 = bricks0, 1 = stone0, 2 = tile0,
3 = diamondMat, 4 = diamondMatRed, 5 = skullMat, and shading parameters
(floating-point colours) keep defaults since no claim reads them. -/
def a1Materials : List Material :=
  [{ Name := 0, MatCBIndex := 0, DiffuseSrvHeapIndex := 0 },
   { Name := 1, MatCBIndex := 1, DiffuseSrvHeapIndex := 1 },
   { Name := 2, MatCBIndex := 2, DiffuseSrvHeapIndex := 2 },
   { Name := 3, MatCBIndex := 3, DiffuseSrvHeapIndex := 3 },
   { Name := 4, MatCBIndex := 4, DiffuseSrvHeapIndex := 4 },
   { Name := 5, MatCBIndex := 5, DiffuseSrvHeapIndex := 5 }]

/-- The built render items: one per recorded index, other fields at their
defaults (in particular `NumFramesDirty = gNumFrameResources`). -/
def a1Items : List RenderItem :=
  a1ObjIndices.map (fun i => { ObjCBIndex := i })

/-- The application state after `Initialize`: `BuildFrameResources`
(lines 816-823) creates `gNumFrameResources` frame resources with buffer
capacities (1, `mAllRitems.size()`, `mMaterials.size()`), the cursor starts
at 0 and no frame has been submitted. -/
def a1InitialState : AppState where
  mFrameResources :=
    List.replicate gNumFrameResources
      (FrameResource.create 1 a1Items.length a1Materials.length)
  mCurrFrameResourceIndex := 0
  mAllRitems := a1Items
  mMaterials := a1Materials
  mCurrentFence := 0

/-- The buffer-capacity and scene-shape facts preserved by every frame. -/
def SceneShape (s : AppState) : Prop :=
  s.mFrameResources.length = gNumFrameResources ∧
  (∀ fr ∈ s.mFrameResources,
    fr.ObjectCB.capacity = a1Items.length ∧
    fr.MaterialCB.capacity = a1Materials.length ∧
    fr.PassCB.capacity = 1) ∧
  s.mAllRitems.map RenderItem.ObjCBIndex = a1ObjIndices ∧
  s.mMaterials.map Material.MatCBIndex = a1Materials.map Material.MatCBIndex

theorem sceneShape_init : SceneShape a1InitialState := by
  have hid : (RenderItem.ObjCBIndex ∘ fun i => ({ ObjCBIndex := i } :
      RenderItem)) = id := rfl
  refine ⟨by simp [a1InitialState], fun fr hfr => ?_, by
    simp [a1InitialState, a1Items, List.map_map, hid], rfl⟩
  have := List.eq_of_mem_replicate hfr
  subst this
  refine ⟨?_, ?_, ?_⟩ <;>
    simp [FrameResource.create, UploadBuffer.capacity_create]

theorem sceneShape_step (s : AppState) (p : PassConstants)
    (h : SceneShape s) : SceneShape (frameStep s p) := by
  obtain ⟨hlen, hcap, hobj, hmat⟩ := h
  have hidx : acquireIndex s < s.mFrameResources.length := by
    rw [hlen]
    exact Nat.mod_lt _ (by decide)
  have hcurr : currFrameResource s ∈ s.mFrameResources := by
    unfold currFrameResource
    rw [List.getD_eq_getElem?_getD, List.getElem?_eq_getElem hidx]
    exact List.getElem_mem hidx
  refine ⟨by rw [frameStep_slots_length, hlen], fun fr hfr => ?_, ?_, ?_⟩
  · simp only [frameStep] at hfr
    rcases List.mem_or_eq_of_mem_set hfr with hfr | rfl
    · exact hcap fr hfr
    · obtain ⟨hc1, hc2, hc3⟩ := hcap _ hcurr
      refine ⟨?_, ?_, ?_⟩
      · show (UpdateObjectCBs s.mAllRitems
          (currFrameResource s).ObjectCB).2.capacity = _
        rw [UpdateObjectCBs, refreshPass_snd, capacity_applyWrites, hc1]
      · show (UpdateMaterialCBs s.mMaterials
          (currFrameResource s).MaterialCB).2.capacity = _
        rw [UpdateMaterialCBs, refreshPass_snd, capacity_applyWrites, hc2]
      · show (UpdateMainPassCB p (currFrameResource s).PassCB).capacity = _
        rw [UpdateMainPassCB, UploadBuffer.capacity_CopyData, hc3]
  · rw [frameStep_items, List.map_map, ← hobj]
    congr 1
    funext e
    exact objKind_index_refreshEntity e
  · rw [frameStep_mats, List.map_map, ← hmat]
    congr 1
    funext m
    exact matKind_index_refreshEntity m

theorem sceneShape_runFrames (s : AppState) (ps : List PassConstants)
    (h : SceneShape s) : SceneShape (runFrames s ps) := by
  induction ps generalizing s with
  | nil => exact h
  | cons p ps ih => exact ih _ (sceneShape_step s p h)

theorem fenceVal_eq_zero_iff (c0 frames j : Nat)
    (hj : j < gNumFrameResources) :
    (fenceVal c0 frames j = 0 ↔ frames < minFramesToSub j) := by
  simp only [fenceVal, minFramesToSub, gNumFrameResources] at *
  split_ifs <;> constructor <;> intro hx <;> omega

theorem callLog_all_dirty (K : DirtyKind E R) (es : List E)
    (h : ∀ a ∈ es, 0 < K.dirty a) :
    callLog K es = es.map (fun a => (K.index a, K.record a)) := by
  induction es with
  | nil => rfl
  | cons e es ih =>
    rw [List.map_cons, callLog, if_pos (h e (List.mem_cons_self e es)),
      ih fun a ha => h a (List.mem_cons_of_mem _ ha)]
    rfl

theorem get?_append_cons (l₁ : List α) (a : α) (l₂ : List α) :
    (l₁ ++ a :: l₂).get? l₁.length = some a := by
  induction l₁ with
  | nil => rfl
  | cons x l₁ ih => simpa using ih

theorem currFrameResource_mem (s : AppState)
    (h : acquireIndex s < s.mFrameResources.length) :
    currFrameResource s ∈ s.mFrameResources := by
  unfold currFrameResource
  rw [List.getD_eq_getElem?_getD, List.getElem?_eq_getElem h]
  exact List.getElem_mem h

theorem frameTail_no_wait (s : AppState) :
    ∀ ev ∈ frameTail s, ∀ f, ev ≠ FrameEv.waitForFence f := by
  intro ev hev f
  rintro rfl
  simp [frameTail] at hev

theorem objIndex_iterate (e : RenderItem) (k : Nat) :
    ((refreshEntity objKind)^[k] e).ObjCBIndex = e.ObjCBIndex := by
  induction k generalizing e with
  | zero => rfl
  | succ k ih =>
    rw [Function.iterate_succ_apply, ih, objKind_index_refreshEntity]

theorem frameStep_objCap (s : AppState) (p : PassConstants) (n : Nat)
    (hlen : acquireIndex s < s.mFrameResources.length)
    (h : ∀ fr ∈ s.mFrameResources, n < fr.ObjectCB.capacity) :
    ∀ fr ∈ (frameStep s p).mFrameResources, n < fr.ObjectCB.capacity := by
  intro fr hfr
  simp only [frameStep] at hfr
  rcases List.mem_or_eq_of_mem_set hfr with hfr | rfl
  · exact h fr hfr
  · show n < (UpdateObjectCBs s.mAllRitems
      (currFrameResource s).ObjectCB).2.capacity
    rw [UpdateObjectCBs, refreshPass_snd, capacity_applyWrites]
    exact h _ (currFrameResource_mem s hlen)

/-- The effect of one frame on the acquired slot's object buffer at the cell
of a dirty item no later item shares: the cell holds the item's record. -/
theorem frameWrite_read (s : AppState) (p : PassConstants)
    (xs ys : List RenderItem) (e : RenderItem)
    (hsplit : s.mAllRitems = xs ++ e :: ys)
    (hdirty : 0 < e.NumFramesDirty)
    (huniq : ∀ a ∈ ys, a.ObjCBIndex ≠ e.ObjCBIndex)
    (hidx : acquireIndex s < s.mFrameResources.length)
    (hcap : e.ObjCBIndex < (currFrameResource s).ObjectCB.capacity) :
    ∃ fr, (frameStep s p).mFrameResources.get? (acquireIndex s) = some fr ∧
      fr.ObjectCB.read e.ObjCBIndex = some (objKind.record e) := by
  refine ⟨_, frameStep_slot_acquired s p hidx, ?_⟩
  show (UpdateObjectCBs s.mAllRitems (currFrameResource s).ObjectCB).2.read
    e.ObjCBIndex = _
  rw [UpdateObjectCBs, refreshPass_snd, hsplit, callLog_append]
  have hcons : callLog objKind (e :: ys) =
      (objKind.index e, objKind.record e) :: callLog objKind ys := by
    have hd : 0 < objKind.dirty e := hdirty
    rw [callLog, if_pos hd]
    rfl
  rw [hcons]
  refine read_applyWrites_last _ _ _ _ _ hcap fun w hw => ?_
  obtain ⟨a, ha, _, rfl⟩ := callLog_mem objKind ys w hw
  exact huniq a ha

/-- A minimal concrete application state used to instantiate theorems with
hypotheses: one render item with index 0 (dirty, as freshly constructed), no
materials, three fresh frame resources sized to the scene, cursor 0. -/
def sampleState : AppState where
  mFrameResources := List.replicate gNumFrameResources
    (FrameResource.create 1 1 0)
  mCurrFrameResourceIndex := 0
  mAllRitems := [{ ObjCBIndex := 0 }]
  mMaterials := []
  mCurrentFence := 0

/-- C7 — No redundant writes: for every entity whose `NumFramesDirty` is 0,
`refreshIfDirty` performs zero `CopyData` calls and returns the entity and
buffer unchanged (objects and materials alike); consequently a whole refresh
pass leaves a buffer cell unchanged whenever every entity carrying that cell's
index is clean. -/
theorem claim_C7_noRedundantWrites :
    (∀ (e : RenderItem) (buf : UploadBuffer ObjectConstants),
      e.NumFramesDirty = 0 →
        refreshIfDirty objKind e buf = (e, buf) ∧
        callLog objKind [e] = []) ∧
    (∀ (m : Material) (buf : UploadBuffer MaterialConstants),
      m.NumFramesDirty = 0 →
        refreshIfDirty matKind m buf = (m, buf) ∧
        callLog matKind [m] = []) ∧
    (∀ (items : List RenderItem) (buf : UploadBuffer ObjectConstants)
      (i : Nat),
      (∀ a ∈ items, a.ObjCBIndex = i → a.NumFramesDirty = 0) →
      (UpdateObjectCBs items buf).2.read i = buf.read i) ∧
    (∀ (mats : List Material) (buf : UploadBuffer MaterialConstants)
      (i : Nat),
      (∀ a ∈ mats, a.MatCBIndex = i → a.NumFramesDirty = 0) →
      (UpdateMaterialCBs mats buf).2.read i = buf.read i) := by
  refine ⟨?_, ?_, ?_, ?_⟩
  · intro e buf h
    have hn : ¬ 0 < objKind.dirty e := by
      show ¬ 0 < e.NumFramesDirty
      omega
    exact ⟨by rw [refreshIfDirty, if_neg hn],
      callLog_singleton_clean _ _ hn⟩
  · intro m buf h
    have hn : ¬ 0 < matKind.dirty m := by
      show ¬ 0 < m.NumFramesDirty
      omega
    exact ⟨by rw [refreshIfDirty, if_neg hn],
      callLog_singleton_clean _ _ hn⟩
  · intro items buf i h
    rw [UpdateObjectCBs, refreshPass_snd]
    refine read_applyWrites_of_not_written _ _ _ fun w hw => ?_
    obtain ⟨a, ha, hd, rfl⟩ := callLog_mem _ _ _ hw
    intro hia
    have hz := h a ha hia
    have hd' : (0 : Int) < a.NumFramesDirty := hd
    omega
  · intro mats buf i h
    rw [UpdateMaterialCBs, refreshPass_snd]
    refine read_applyWrites_of_not_written _ _ _ fun w hw => ?_
    obtain ⟨a, ha, hd, rfl⟩ := callLog_mem _ _ _ hw
    intro hia
    have hz := h a ha hia
    have hd' : (0 : Int) < a.NumFramesDirty := hd
    omega

theorem claim_C7_witness :
    ({ ObjCBIndex := 5, NumFramesDirty := 0 } : RenderItem).NumFramesDirty
      = 0 ∧
    refreshIfDirty objKind
        ({ ObjCBIndex := 5, NumFramesDirty := 0 } : RenderItem)
        ⟨[default]⟩ =
      (({ ObjCBIndex := 5, NumFramesDirty := 0 } : RenderItem),
        ⟨[default]⟩) :=
  ⟨rfl, (claim_C7_noRedundantWrites.1 _ _ rfl).1⟩

/-- C10 — Refresh locality: refreshing one dirty drawable writes only its cell
(at `ObjCBIndex`) of the acquired slot's object buffer and decrements only its
`NumFramesDirty`; its `World`, `TexTransform`, `ObjCBIndex`,
material/geometry references and draw arguments are unchanged, the refresh of
one item leaves every other item's transformation to its own refresh
(position-wise), and a frame leaves the other ring slots' frame resources
untouched. -/
theorem claim_C10_refreshLocality :
    (∀ (e : RenderItem) (buf : UploadBuffer ObjectConstants),
      0 < e.NumFramesDirty →
      (refreshIfDirty objKind e buf).1.World = e.World ∧
      (refreshIfDirty objKind e buf).1.TexTransform = e.TexTransform ∧
      (refreshIfDirty objKind e buf).1.ObjCBIndex = e.ObjCBIndex ∧
      (refreshIfDirty objKind e buf).1.Mat = e.Mat ∧
      (refreshIfDirty objKind e buf).1.Geo = e.Geo ∧
      (refreshIfDirty objKind e buf).1.IndexCount = e.IndexCount ∧
      (refreshIfDirty objKind e buf).1.StartIndexLocation =
        e.StartIndexLocation ∧
      (refreshIfDirty objKind e buf).1.BaseVertexLocation =
        e.BaseVertexLocation ∧
      (refreshIfDirty objKind e buf).1.NumFramesDirty =
        e.NumFramesDirty - 1 ∧
      (∀ j, j ≠ e.ObjCBIndex →
        (refreshIfDirty objKind e buf).2.read j = buf.read j) ∧
      (refreshIfDirty objKind e buf).2.capacity = buf.capacity) ∧
    (∀ (xs : List RenderItem) (e : RenderItem) (ys : List RenderItem)
      (buf : UploadBuffer ObjectConstants),
      (UpdateObjectCBs (xs ++ e :: ys) buf).1 =
        xs.map (refreshEntity objKind) ++
          refreshEntity objKind e :: ys.map (refreshEntity objKind)) ∧
    (∀ (s : AppState) (p : PassConstants) (m : Nat), m ≠ acquireIndex s →
      (frameStep s p).mFrameResources.get? m =
        s.mFrameResources.get? m) := by
  refine ⟨?_, ?_, ?_⟩
  · intro e buf h
    have hd : 0 < objKind.dirty e := h
    simp only [refreshIfDirty, if_pos hd]
    refine ⟨rfl, rfl, rfl, rfl, rfl, rfl, rfl, rfl, rfl, fun j hj => ?_, ?_⟩
    · exact UploadBuffer.read_CopyData_ne _ _ _ _ (Ne.symm hj)
    · exact UploadBuffer.capacity_CopyData _ _ _
  · intro xs e ys buf
    rw [UpdateObjectCBs, refreshPass_fst, List.map_append, List.map_cons]
  · intro s p m hm
    exact frameStep_slot_other s p m hm

theorem claim_C10_witness :
    (0 : Int) < (({ ObjCBIndex := 0 } : RenderItem)).NumFramesDirty ∧
    (refreshIfDirty objKind ({ ObjCBIndex := 0 } : RenderItem)
      ⟨[default, default]⟩).2.read 1 = (⟨[default, default]⟩ :
        UploadBuffer ObjectConstants).read 1 :=
  ⟨by decide,
    ((claim_C10_refreshLocality.1 _ _ (by decide)).2.2.2.2.2.2.2.2.2).1 1
      (by decide)⟩

/-- C5 — `framesDirty` counter invariant: marking an entity dirty sets the
counter to the ring depth; a refresh of a dirty drawable decrements it by
exactly 1; no reachable frame leaves a counter negative (non-negativity is
preserved by every frame); and starting from a fresh `markDirty`, after `k`
refreshes the counter is exactly `ringDepth - k` — strictly positive for
`k < ringDepth`, so it reaches 0 only after `ringDepth` consecutive
once-per-frame refreshes. -/
theorem claim_C5_framesDirtyCounter :
    (∀ e : RenderItem,
      (RenderItem.markDirty e).NumFramesDirty = (gNumFrameResources : Int)) ∧
    (∀ m : Material,
      (Material.markDirty m).NumFramesDirty = (gNumFrameResources : Int)) ∧
    (∀ (e : RenderItem) (buf : UploadBuffer ObjectConstants),
      0 < e.NumFramesDirty →
      (refreshIfDirty objKind e buf).1.NumFramesDirty =
        e.NumFramesDirty - 1) ∧
    (∀ (s : AppState) (p : PassConstants),
      (∀ e ∈ s.mAllRitems, 0 ≤ e.NumFramesDirty) →
      ∀ e ∈ (frameStep s p).mAllRitems, 0 ≤ e.NumFramesDirty) ∧
    (∀ (e : RenderItem) (k : Nat), k ≤ gNumFrameResources →
      ((refreshEntity objKind)^[k]
        (RenderItem.markDirty e)).NumFramesDirty =
          (gNumFrameResources : Int) - k) ∧
    (∀ (e : RenderItem) (k : Nat), k < gNumFrameResources →
      0 < ((refreshEntity objKind)^[k]
        (RenderItem.markDirty e)).NumFramesDirty) := by
  have hiter : ∀ (e : RenderItem) (k : Nat), k ≤ gNumFrameResources →
      ((refreshEntity objKind)^[k]
        (RenderItem.markDirty e)).NumFramesDirty =
          (gNumFrameResources : Int) - k := by
    intro e k hk
    rw [iterate_refreshEntity_objKind _ k (by
      show (k : Int) ≤ (RenderItem.markDirty e).NumFramesDirty
      show (k : Int) ≤ (gNumFrameResources : Int)
      exact_mod_cast hk)]
    rfl
  refine ⟨fun e => rfl, fun m => rfl, ?_, ?_, hiter, ?_⟩
  · intro e buf h
    have hd : 0 < objKind.dirty e := h
    simp only [refreshIfDirty, if_pos hd]
    rfl
  · intro s p h e' he'
    rw [frameStep_items] at he'
    obtain ⟨a, ha, rfl⟩ := List.mem_map.mp he'
    by_cases hd : 0 < a.NumFramesDirty
    · rw [refreshEntity_objKind_dirty_pos a hd]
      show (0 : Int) ≤ a.NumFramesDirty - 1
      omega
    · rw [refreshEntity_objKind_clean a hd]
      exact h a ha
  · intro e k hk
    rw [hiter e k (le_of_lt hk)]
    have : (k : Int) < (gNumFrameResources : Int) := by exact_mod_cast hk
    omega

theorem claim_C5_witness :
    (0 : Int) <
      (({ ObjCBIndex := 0 } : RenderItem)).NumFramesDirty ∧
    (refreshIfDirty objKind ({ ObjCBIndex := 0 } : RenderItem)
      ⟨[default]⟩).1.NumFramesDirty =
      (({ ObjCBIndex := 0 } : RenderItem)).NumFramesDirty - 1 ∧
    ((refreshEntity objKind)^[2]
      (RenderItem.markDirty ({ ObjCBIndex := 0 } : RenderItem))).NumFramesDirty
        = (gNumFrameResources : Int) - 2 :=
  ⟨by decide, claim_C5_framesDirtyCounter.2.2.1 _ _ (by decide),
    claim_C5_framesDirtyCounter.2.2.2.2.1 _ 2 (by decide)⟩

/-- C3 — Blocking correctness of the acquire: each frame the cursor advances
by exactly one modulo the ring depth; a wait occurs in the frame's event
sequence exactly when the selected slot's fence is nonzero and the observed
completed value is below it (equivalently: no wait iff the fence is 0 or
already completed); any wait is for exactly the selected slot's fence and sits
immediately after the acquire — the sole blocking point of a frame; and at
the fence level a frame's recording begins only once the completed value has
reached the slot's fence (or the slot was never submitted), that condition
alone sufficing for the step to proceed. -/
theorem claim_C3_acquireBlocking :
    (∀ (s : AppState) (p : PassConstants),
      (frameStep s p).mCurrFrameResourceIndex =
        (s.mCurrFrameResourceIndex + 1) % gNumFrameResources) ∧
    (∀ (s : AppState) (completed : Nat),
      (∃ f, FrameEv.waitForFence f ∈ frameEvents s completed) ↔
        ¬((currFrameResource s).Fence = 0 ∨
          (currFrameResource s).Fence ≤ completed)) ∧
    (∀ (s : AppState) (completed f : Nat),
      FrameEv.waitForFence f ∈ frameEvents s completed →
        f = (currFrameResource s).Fence) ∧
    (∀ (s : AppState) (completed i f : Nat),
      (frameEvents s completed).get? i = some (FrameEv.waitForFence f) →
        i = 1) ∧
    (∀ (s s' : ProtoState), protoStep s s' →
      s'.cursor = (s.cursor + 1) % gNumFrameResources ∧
      (s.fences (acquiredSlot s) = 0 ∨
        s.fences (acquiredSlot s) ≤ s'.completed)) ∧
    (∀ (s : ProtoState) (c' : Nat), s.completed ≤ c' → c' ≤ s.counter →
      s.fences (acquiredSlot s) ≤ c' → protoStep s (protoNext s c')) := by
  have hwaitTrue : ∀ (s : AppState) (completed : Nat),
      fenceWaitNeeded (currFrameResource s).Fence completed = true ↔
        ((currFrameResource s).Fence ≠ 0 ∧
          completed < (currFrameResource s).Fence) := by
    intro s completed
    simp [fenceWaitNeeded]
  refine ⟨fun s p => rfl, ?_, ?_, ?_, ?_, ?_⟩
  · intro s completed
    constructor
    · rintro ⟨f, hf⟩
      rcases List.mem_cons.mp hf with h | h
      · simp at h
      · rcases List.mem_append.mp h with h | h
        · by_cases hw : fenceWaitNeeded (currFrameResource s).Fence completed
          · have := (hwaitTrue s completed).mp hw
            intro hc
            rcases hc with hc | hc <;> omega
          · rw [if_neg hw] at h
            cases h
        · exact absurd rfl (frameTail_no_wait s _ h f)
    · intro hcond
      push_neg at hcond
      have hw : fenceWaitNeeded (currFrameResource s).Fence completed
          = true :=
        (hwaitTrue s completed).mpr ⟨hcond.1, by omega⟩
      exact ⟨(currFrameResource s).Fence, by simp [frameEvents, hw]⟩
  · intro s completed f hf
    rcases List.mem_cons.mp hf with h | h
    · simp at h
    · rcases List.mem_append.mp h with h | h
      · by_cases hw : fenceWaitNeeded (currFrameResource s).Fence completed
        · rw [if_pos hw] at h
          rcases List.mem_singleton.mp h with h
          injection h
        · rw [if_neg hw] at h
          cases h
      · exact absurd rfl (frameTail_no_wait s _ h f)
  · intro s completed i f hf
    by_cases hw : fenceWaitNeeded (currFrameResource s).Fence completed
    · rw [frameEvents, if_pos hw] at hf
      match i, hf with
      | 0, hf => simp at hf
      | 1, hf => rfl
      | (n + 2), hf =>
        exact absurd rfl
          (frameTail_no_wait s _ (List.get?_mem hf) f)
    · rw [frameEvents, if_neg hw] at hf
      match i, hf with
      | 0, hf => simp at hf
      | (n + 1), hf =>
        simp only [List.get?_cons_succ, List.nil_append] at hf
        exact absurd rfl
          (frameTail_no_wait s _ (List.get?_mem hf) f)
  · intro s s' h
    cases h with
    | frame c' h1 h2 h3 => exact ⟨rfl, h3⟩
  · intro s c' h1 h2 h3
    exact protoStep.frame s c' h1 h2 (Or.inr h3)

theorem claim_C3_witness :
    (initProto 0).completed ≤ 0 ∧ 0 ≤ (initProto 0).counter ∧
    (initProto 0).fences (acquiredSlot (initProto 0)) ≤ 0 ∧
    protoStep (initProto 0) (protoNext (initProto 0) 0) :=
  ⟨le_refl 0, le_refl 0, le_refl 0,
    claim_C3_acquireBlocking.2.2.2.2.2 (initProto 0) 0 (le_refl 0)
      (le_refl 0) (le_refl 0)⟩

/-- C4 (amended) — Per-frame step order as the code performs it: within every
rendered frame the events are, in order, the acquire (step 1), the optional
fence wait, the dirty-drawable constant refreshes (step 2), the material
refreshes (step 3), the pass-constant refresh (step 4), then — only after all
constant refreshes, because they happen in `Update` while the
command-allocator reset happens at the start of `Draw` — the
`resetRecording` of the acquired slot's allocator (step 5), the draw
submission (step 6) and the fence increment/signal (step 7). -/
theorem claim_C4_stepOrder (s : AppState) (completed : Nat) :
    ∃ waitEvs objEvs matEvs,
      frameEvents s completed =
        FrameEv.acquire (acquireIndex s) ::
          (waitEvs ++ objEvs ++ matEvs ++ [FrameEv.writePass 0] ++
            [FrameEv.allocReset (acquireIndex s),
             FrameEv.submit (acquireIndex s),
             FrameEv.signalFence (acquireIndex s) (s.mCurrentFence + 1)]) ∧
      (∀ ev ∈ waitEvs,
        ev = FrameEv.waitForFence (currFrameResource s).Fence) ∧
      (∀ ev ∈ objEvs, ∃ i, ev = FrameEv.writeObj i) ∧
      (∀ ev ∈ matEvs, ∃ i, ev = FrameEv.writeMat i) := by
  refine ⟨(if fenceWaitNeeded (currFrameResource s).Fence completed then
      [FrameEv.waitForFence (currFrameResource s).Fence] else []),
    (callLog objKind s.mAllRitems).map (fun w => FrameEv.writeObj w.1),
    (callLog matKind s.mMaterials).map (fun w => FrameEv.writeMat w.1),
    ?_, ?_, ?_, ?_⟩
  · simp [frameEvents, frameTail, List.append_assoc]
  · intro ev hev
    split_ifs at hev
    · exact List.mem_singleton.mp hev
    · cases hev
  · intro ev hev
    obtain ⟨w, _, rfl⟩ := List.mem_map.mp hev
    exact ⟨w.1, rfl⟩
  · intro ev hev
    obtain ⟨w, _, rfl⟩ := List.mem_map.mp hev
    exact ⟨w.1, rfl⟩

theorem claim_C4_witness :
    ∃ waitEvs objEvs matEvs,
      frameEvents sampleState 0 =
        FrameEv.acquire (acquireIndex sampleState) ::
          (waitEvs ++ objEvs ++ matEvs ++ [FrameEv.writePass 0] ++
            [FrameEv.allocReset (acquireIndex sampleState),
             FrameEv.submit (acquireIndex sampleState),
             FrameEv.signalFence (acquireIndex sampleState)
               (sampleState.mCurrentFence + 1)]) ∧
      (∀ ev ∈ waitEvs,
        ev = FrameEv.waitForFence (currFrameResource sampleState).Fence) ∧
      (∀ ev ∈ objEvs, ∃ i, ev = FrameEv.writeObj i) ∧
      (∀ ev ∈ matEvs, ∃ i, ev = FrameEv.writeMat i) :=
  claim_C4_stepOrder sampleState 0

/-- C4, as stated by the spec, is false on the code: the spec places
`resetRecording` (step 2) before every constant refresh (steps 3-5), but the
code refreshes constants in `Update` (lines 225-227) and resets the command
allocator only afterwards in `Draw` (line 236). Concretely, in the frame
rendered from `sampleState` the object-constant write is event 1 while the
allocator reset is event 3. -/
theorem claim_C4_counterexample :
    ¬ (∀ (s : AppState) (completed i j sl idx : Nat),
        (frameEvents s completed).get? i = some (FrameEv.allocReset sl) →
        (frameEvents s completed).get? j = some (FrameEv.writeObj idx) →
        i < j) := by
  intro h
  have h1 : (frameEvents sampleState 0).get? 3 =
      some (FrameEv.allocReset 1) := by decide
  have h2 : (frameEvents sampleState 0).get? 1 =
      some (FrameEv.writeObj 0) := by decide
  have := h sampleState 0 3 1 1 0 h1 h2
  omega

/-- C8 — Fence bookkeeping: each frame increments the global fence counter by
exactly 1 before signalling, stores exactly that new value on the acquired
slot (so the value submitted at frame `n` is `c0 + n`, a strictly increasing
sequence across frames since the counter equals `c0 + frames` in every
reachable state and `frames` increments by 1 per frame), submitted fences are
nonzero, and a slot's stored fence is 0 exactly when no frame so far has
submitted it. -/
theorem claim_C8_fenceBookkeeping (c0 : Nat) (s s' : ProtoState)
    (hreach : ProtoReachable c0 s) (hstep : protoStep s s') :
    s'.counter = s.counter + 1 ∧
    s'.fences (acquiredSlot s) = s'.counter ∧
    s'.frames = s.frames + 1 ∧
    s.counter = c0 + s.frames ∧
    0 < s'.fences (acquiredSlot s) ∧
    (∀ j < gNumFrameResources,
      (s.fences j = 0 ↔ s.frames < minFramesToSub j)) := by
  obtain ⟨h0, h1, h2, h3, h4, h5⟩ := protoInv_reachable c0 s hreach
  cases hstep with
  | frame c' hmono hbound hwait =>
    have hupd : (protoNext s c').fences (acquiredSlot s) = s.counter + 1 :=
      Function.update_same _ _ _
    refine ⟨rfl, hupd, rfl, h2, ?_, ?_⟩
    · rw [hupd]
      omega
    · intro j hj
      rw [h5 j hj]
      exact fenceVal_eq_zero_iff c0 s.frames j hj

theorem claim_C8_witness :
    ProtoReachable 0 (initProto 0) ∧
    protoStep (initProto 0) (protoNext (initProto 0) 0) ∧
    (protoNext (initProto 0) 0).counter = (initProto 0).counter + 1 ∧
    (protoNext (initProto 0) 0).fences (acquiredSlot (initProto 0)) =
      (protoNext (initProto 0) 0).counter := by
  have hstep : protoStep (initProto 0) (protoNext (initProto 0) 0) :=
    protoStep.frame _ 0 (le_refl 0) (le_refl 0) (Or.inl rfl)
  have h := claim_C8_fenceBookkeeping 0 _ _ Relation.ReflTransGen.refl hstep
  exact ⟨Relation.ReflTransGen.refl, hstep, h.1, h.2.1⟩

/-- C2 — Ring bound invariant: in every reachable fence-level state, the
number of submitted frames not yet retired (frames `k` whose fence `c0 + k`
exceeds the observed completed value) is at most the ring depth — as is the
counter/completed gap — and a step never begins recording on a slot whose
last submitted fence exceeds the completed value it observed after the wait
(unless the slot was never submitted). -/
theorem claim_C2_ringBound (c0 : Nat) (s : ProtoState)
    (hreach : ProtoReachable c0 s) :
    ((Finset.Icc 1 s.frames).filter
      (fun k => s.completed < c0 + k)).card ≤ gNumFrameResources ∧
    s.counter - s.completed ≤ gNumFrameResources ∧
    (∀ s', protoStep s s' →
      (s.fences (acquiredSlot s) = 0 ∨
        s.fences (acquiredSlot s) ≤ s'.completed)) := by
  obtain ⟨h0, h1, h2, h3, h4, h5⟩ := protoInv_reachable c0 s hreach
  refine ⟨?_, by omega, ?_⟩
  · have hsub : (Finset.Icc 1 s.frames).filter
        (fun k => s.completed < c0 + k) ⊆
        Finset.Icc (s.completed + 1 - c0) s.frames := by
      intro k hk
      simp only [Finset.mem_filter, Finset.mem_Icc] at hk ⊢
      omega
    calc ((Finset.Icc 1 s.frames).filter
          (fun k => s.completed < c0 + k)).card
        ≤ (Finset.Icc (s.completed + 1 - c0) s.frames).card :=
          Finset.card_le_card hsub
      _ = s.frames + 1 - (s.completed + 1 - c0) := Nat.card_Icc _ _
      _ ≤ gNumFrameResources := by omega
  · intro s' hstep
    cases hstep with
    | frame c' hmono hbound hwait => exact hwait

theorem claim_C2_witness :
    ((Finset.Icc 1 (initProto 0).frames).filter
      (fun k => (initProto 0).completed < 0 + k)).card ≤
        gNumFrameResources ∧
    (initProto 0).counter - (initProto 0).completed ≤ gNumFrameResources :=
  ⟨(claim_C2_ringBound 0 _ Relation.ReflTransGen.refl).1,
    (claim_C2_ringBound 0 _ Relation.ReflTransGen.refl).2.1⟩

/-- C9 — Implicit initial dirtiness: a default-constructed `RenderItem`
already has `NumFramesDirty = gNumFrameResources` (as does every item of the
built `Assigment #1` scene), so no explicit `markDirty` is needed after scene
build: during each of the first `ringDepth` rendered frames every drawable is
still dirty and is uploaded exactly once (the frame's call log has exactly one
entry per item, in item order), the three frames acquire three pairwise
distinct slots, and after the third frame every drawable's counter is 0. -/
theorem claim_C9_initialDirty :
    (({} : RenderItem).NumFramesDirty = (gNumFrameResources : Int)) ∧
    (∀ e ∈ a1InitialState.mAllRitems,
      e.NumFramesDirty = (gNumFrameResources : Int)) ∧
    (∀ (s : AppState) (ps : List PassConstants),
      (∀ e ∈ s.mAllRitems, e.NumFramesDirty = (gNumFrameResources : Int)) →
      ps.length = gNumFrameResources →
      (∀ e ∈ (runFrames s ps).mAllRitems, e.NumFramesDirty = 0) ∧
      (∀ k, k < gNumFrameResources →
        callLog objKind (runFrames s (ps.take k)).mAllRitems =
          (runFrames s (ps.take k)).mAllRitems.map
            (fun a => (a.ObjCBIndex, objKind.record a))) ∧
      (∀ k, k < gNumFrameResources →
        (runFrames s (ps.take (k + 1))).mCurrFrameResourceIndex =
          (s.mCurrFrameResourceIndex + k + 1) % gNumFrameResources) ∧
      (∀ k1 k2, k1 < gNumFrameResources → k2 < gNumFrameResources →
        k1 ≠ k2 →
        (s.mCurrFrameResourceIndex + k1 + 1) % gNumFrameResources ≠
          (s.mCurrFrameResourceIndex + k2 + 1) % gNumFrameResources)) := by
  refine ⟨rfl, ?_, ?_⟩
  · intro e he
    obtain ⟨i, _, rfl⟩ := List.mem_map.mp he
    rfl
  · intro s ps hfresh hlen
    have hdirty_at : ∀ (k : Nat), k ≤ gNumFrameResources →
        ∀ e' ∈ (runFrames s (ps.take k)).mAllRitems,
          e'.NumFramesDirty = (gNumFrameResources : Int) - k := by
      intro k hk e' he'
      have hlk : (ps.take k).length = k := by
        rw [List.length_take]
        omega
      rw [runFrames_items, hlk] at he'
      obtain ⟨a, ha, rfl⟩ := List.mem_map.mp he'
      have hd := hfresh a ha
      rw [iterate_refreshEntity_objKind a k (by rw [hd]; exact_mod_cast hk)]
      rw [hd]
    refine ⟨?_, ?_, ?_, ?_⟩
    · intro e he
      have := hdirty_at gNumFrameResources (le_refl _) e
        (by rwa [List.take_of_length_le (le_of_eq hlen)])
      rw [this]
      simp
    · intro k hk
      refine callLog_all_dirty _ _ fun a ha => ?_
      have := hdirty_at k (le_of_lt hk) a ha
      show (0 : Int) < a.NumFramesDirty
      rw [this]
      have : (k : Int) < (gNumFrameResources : Int) := by exact_mod_cast hk
      omega
    · intro k hk
      have hlk : (ps.take (k + 1)).length = k + 1 := by
        rw [List.length_take]
        omega
      rcases htk : ps.take (k + 1) with _ | ⟨q, qs⟩
      · rw [htk] at hlk
        simp at hlk
      · rw [htk] at hlk
        simp only [List.length_cons] at hlk
        rw [runFrames_cursor]
        have hqk : qs.length = k := by omega
        rw [hqk]
    · intro k1 k2 h1 h2 hne
      simp only [gNumFrameResources] at *
      omega

theorem claim_C9_witness :
    (∀ e ∈ sampleState.mAllRitems,
      e.NumFramesDirty = (gNumFrameResources : Int)) ∧
    (∀ e ∈ (runFrames sampleState
        [PassConstants.mk 0, PassConstants.mk 0,
          PassConstants.mk 0]).mAllRitems,
      e.NumFramesDirty = 0) :=
  ⟨by decide,
    (claim_C9_initialDirty.2.2 sampleState
      [PassConstants.mk 0, PassConstants.mk 0, PassConstants.mk 0]
      (by decide) rfl).1⟩

/-- C6 — `CopyData` index safety: the call requires `0 <= index < capacity`,
and under the protocol on the `Assigment #1` scene the precondition always
holds: every built `ObjCBIndex` is below the object-buffer capacity (the
number of render items, 96), every `MatCBIndex` is below the material-buffer
capacity (the number of materials, 6), the pass buffer has capacity 1 and is
written only at index 0, and in every state reachable by rendering frames
from the initial scene each frame's `CopyData` calls all satisfy
`copyDataOk` — the out-of-range branch is unreachable. -/
theorem claim_C6_copyDataIndexSafety :
    (∀ (T : Type) (b : UploadBuffer T) (i : Nat),
      b.copyDataOk i ↔ i < b.capacity) ∧
    (∀ i ∈ a1ObjIndices, i < a1Items.length) ∧
    (∀ m ∈ a1Materials, m.MatCBIndex < a1Materials.length) ∧
    (∀ (ps : List PassConstants) (fr : FrameResource),
      fr ∈ (runFrames a1InitialState ps).mFrameResources →
      (fr.ObjectCB.capacity = a1Items.length ∧
       fr.MaterialCB.capacity = a1Materials.length ∧
       fr.PassCB.capacity = 1) ∧
      (∀ w ∈ callLog objKind (runFrames a1InitialState ps).mAllRitems,
        fr.ObjectCB.copyDataOk w.1) ∧
      (∀ w ∈ callLog matKind (runFrames a1InitialState ps).mMaterials,
        fr.MaterialCB.copyDataOk w.1) ∧
      fr.PassCB.copyDataOk 0) := by
  have hobjRange : ∀ i ∈ a1ObjIndices, i < a1Items.length := by decide
  have hmatRange : ∀ x ∈ a1Materials.map Material.MatCBIndex,
      x < a1Materials.length := by decide
  refine ⟨fun T b i => Iff.rfl, hobjRange, ?_, ?_⟩
  · intro m hm
    exact hmatRange m.MatCBIndex (List.mem_map_of_mem _ hm)
  · intro ps fr hfr
    obtain ⟨hlen, hcap, hobj, hmat⟩ :=
      sceneShape_runFrames a1InitialState ps sceneShape_init
    obtain ⟨hc1, hc2, hc3⟩ := hcap fr hfr
    refine ⟨⟨hc1, hc2, hc3⟩, ?_, ?_, ?_⟩
    · intro w hw
      obtain ⟨a, ha, _, rfl⟩ := callLog_mem _ _ _ hw
      show a.ObjCBIndex < fr.ObjectCB.capacity
      rw [hc1]
      refine hobjRange a.ObjCBIndex ?_
      rw [← hobj]
      exact List.mem_map_of_mem _ ha
    · intro w hw
      obtain ⟨a, ha, _, rfl⟩ := callLog_mem _ _ _ hw
      show a.MatCBIndex < fr.MaterialCB.capacity
      rw [hc2]
      refine hmatRange a.MatCBIndex ?_
      rw [← hmat]
      exact List.mem_map_of_mem _ ha
    · show 0 < fr.PassCB.capacity
      rw [hc3]
      exact Nat.zero_lt_one

theorem claim_C6_witness :
    (0 : Nat) ∈ a1ObjIndices ∧ 0 < a1Items.length :=
  ⟨by decide, claim_C6_copyDataIndexSafety.2.1 0 (by decide)⟩

theorem objRecord_iterate (e : RenderItem) (k : Nat) :
    objKind.record ((refreshEntity objKind)^[k] e) = objKind.record e := by
  induction k generalizing e with
  | zero => rfl
  | succ k ih =>
    rw [Function.iterate_succ_apply, ih, objKind_record_refreshEntity]

theorem acquireIndex_lt (s : AppState) : acquireIndex s < gNumFrameResources :=
  Nat.mod_lt _ (by decide)

theorem matKind_record_refreshEntity (m : Material) :
    matKind.record (refreshEntity matKind m) = matKind.record m := by
  by_cases h : 0 < m.NumFramesDirty
  · rw [refreshEntity_matKind_dirty_pos m h]
    rfl
  · rw [refreshEntity_matKind_clean m h]

theorem matRecord_iterate (m : Material) (k : Nat) :
    matKind.record ((refreshEntity matKind)^[k] m) = matKind.record m := by
  induction k generalizing m with
  | zero => rfl
  | succ k ih =>
    rw [Function.iterate_succ_apply, ih, matKind_record_refreshEntity]

theorem matIndex_iterate (m : Material) (k : Nat) :
    ((refreshEntity matKind)^[k] m).MatCBIndex = m.MatCBIndex := by
  induction k generalizing m with
  | zero => rfl
  | succ k ih =>
    rw [Function.iterate_succ_apply, ih, matKind_index_refreshEntity]

theorem frameStep_matCap (s : AppState) (p : PassConstants) (n : Nat)
    (hlen : acquireIndex s < s.mFrameResources.length)
    (h : ∀ fr ∈ s.mFrameResources, n < fr.MaterialCB.capacity) :
    ∀ fr ∈ (frameStep s p).mFrameResources, n < fr.MaterialCB.capacity := by
  intro fr hfr
  simp only [frameStep] at hfr
  rcases List.mem_or_eq_of_mem_set hfr with hfr | rfl
  · exact h fr hfr
  · show n < (UpdateMaterialCBs s.mMaterials
      (currFrameResource s).MaterialCB).2.capacity
    rw [UpdateMaterialCBs, refreshPass_snd, capacity_applyWrites]
    exact h _ (currFrameResource_mem s hlen)

/-- The effect of one frame on the acquired slot's material buffer at the cell
of a dirty material no later material shares: the cell holds the material's
record. -/
theorem frameWriteMat_read (s : AppState) (p : PassConstants)
    (xs ys : List Material) (m0 : Material)
    (hsplit : s.mMaterials = xs ++ m0 :: ys)
    (hdirty : 0 < m0.NumFramesDirty)
    (huniq : ∀ a ∈ ys, a.MatCBIndex ≠ m0.MatCBIndex)
    (hidx : acquireIndex s < s.mFrameResources.length)
    (hcap : m0.MatCBIndex < (currFrameResource s).MaterialCB.capacity) :
    ∃ fr, (frameStep s p).mFrameResources.get? (acquireIndex s) = some fr ∧
      fr.MaterialCB.read m0.MatCBIndex = some (matKind.record m0) := by
  refine ⟨_, frameStep_slot_acquired s p hidx, ?_⟩
  show (UpdateMaterialCBs s.mMaterials
    (currFrameResource s).MaterialCB).2.read m0.MatCBIndex = _
  rw [UpdateMaterialCBs, refreshPass_snd, hsplit, callLog_append]
  have hcons : callLog matKind (m0 :: ys) =
      (matKind.index m0, matKind.record m0) :: callLog matKind ys := by
    have hd : 0 < matKind.dirty m0 := hdirty
    rw [callLog, if_pos hd]
    rfl
  rw [hcons]
  refine read_applyWrites_last _ _ _ _ _ hcap fun w hw => ?_
  obtain ⟨a, ha, _, rfl⟩ := callLog_mem matKind ys w hw
  exact huniq a ha

/-- Rendering three consecutive frames from a state whose material list
contains a material `m0` with a full dirty count, whose index no later
material shares and which is in range of every slot's material buffer, leaves
`m0`'s record in every slot's material buffer. -/
theorem three_frames_converge_mat (t : AppState) (xs ys : List Material)
    (m0 : Material) (p1 p2 p3 : PassConstants)
    (hlen : t.mFrameResources.length = gNumFrameResources)
    (hsplit : t.mMaterials = xs ++ m0 :: ys)
    (hdirty : m0.NumFramesDirty = (gNumFrameResources : Int))
    (huniq : ∀ a ∈ ys, a.MatCBIndex ≠ m0.MatCBIndex)
    (hcap : ∀ fr ∈ t.mFrameResources,
      m0.MatCBIndex < fr.MaterialCB.capacity) :
    ∀ fr ∈ (frameStep (frameStep (frameStep t p1) p2) p3).mFrameResources,
      fr.MaterialCB.read m0.MatCBIndex = some (matKind.record m0) := by
  have hidx1 : acquireIndex t < t.mFrameResources.length := by
    rw [hlen]
    exact acquireIndex_lt t
  have hd0 : 0 < m0.NumFramesDirty := by
    rw [hdirty]
    decide
  -- frame 1 writes the acquired slot
  obtain ⟨fr1, hfr1get, hfr1read⟩ :=
    frameWriteMat_read t p1 xs ys m0 hsplit hd0 huniq hidx1
      (hcap _ (currFrameResource_mem t hidx1))
  -- frame 2
  have hsplit1 : (frameStep t p1).mMaterials =
      xs.map (refreshEntity matKind) ++
        refreshEntity matKind m0 :: ys.map (refreshEntity matKind) := by
    rw [frameStep_mats, hsplit, List.map_append, List.map_cons]
  have hd1 : 0 < (refreshEntity matKind m0).NumFramesDirty := by
    rw [refreshEntity_matKind_dirty_pos m0 hd0]
    show (0 : Int) < m0.NumFramesDirty - 1
    rw [hdirty]
    decide
  have hi1 : (refreshEntity matKind m0).MatCBIndex = m0.MatCBIndex :=
    matKind_index_refreshEntity m0
  have huniq1 : ∀ a ∈ ys.map (refreshEntity matKind),
      a.MatCBIndex ≠ (refreshEntity matKind m0).MatCBIndex := by
    intro a ha
    obtain ⟨b, hb, rfl⟩ := List.mem_map.mp ha
    rw [hi1, matKind_index_refreshEntity]
    exact huniq b hb
  have hlen1 : (frameStep t p1).mFrameResources.length =
      gNumFrameResources := by
    rw [frameStep_slots_length, hlen]
  have hcap1 : ∀ fr ∈ (frameStep t p1).mFrameResources,
      m0.MatCBIndex < fr.MaterialCB.capacity :=
    frameStep_matCap t p1 _ hidx1 hcap
  have hidx2 : acquireIndex (frameStep t p1) <
      (frameStep t p1).mFrameResources.length := by
    rw [hlen1]
    exact acquireIndex_lt _
  obtain ⟨fr2, hfr2get, hfr2read⟩ :=
    frameWriteMat_read (frameStep t p1) p2 (xs.map (refreshEntity matKind))
      (ys.map (refreshEntity matKind)) (refreshEntity matKind m0) hsplit1
      hd1 huniq1 hidx2
      (by rw [hi1]
          exact hcap1 _ (currFrameResource_mem _ hidx2))
  rw [hi1] at hfr2read
  rw [show matKind.record (refreshEntity matKind m0) = matKind.record m0
    from matKind_record_refreshEntity m0] at hfr2read
  -- frame 3
  have he2iter : refreshEntity matKind (refreshEntity matKind m0) =
      (refreshEntity matKind)^[2] m0 := by
    rw [Function.iterate_succ_apply, Function.iterate_one]
  have hsplit2 : (frameStep (frameStep t p1) p2).mMaterials =
      (xs.map (refreshEntity matKind)).map (refreshEntity matKind) ++
        refreshEntity matKind (refreshEntity matKind m0) ::
          (ys.map (refreshEntity matKind)).map (refreshEntity matKind) := by
    rw [frameStep_mats, hsplit1, List.map_append, List.map_cons]
  have hd2 : 0 <
      (refreshEntity matKind (refreshEntity matKind m0)).NumFramesDirty := by
    rw [he2iter, iterate_refreshEntity_matKind m0 2 (by
      rw [hdirty]
      decide)]
    show (0 : Int) < m0.NumFramesDirty - 2
    rw [hdirty]
    decide
  have hi2 : (refreshEntity matKind
      (refreshEntity matKind m0)).MatCBIndex = m0.MatCBIndex := by
    rw [matKind_index_refreshEntity, hi1]
  have huniq2 : ∀ a ∈ (ys.map (refreshEntity matKind)).map
      (refreshEntity matKind),
      a.MatCBIndex ≠
        (refreshEntity matKind (refreshEntity matKind m0)).MatCBIndex := by
    intro a ha
    obtain ⟨b, hb, rfl⟩ := List.mem_map.mp ha
    rw [hi2, matKind_index_refreshEntity, ← hi1]
    exact huniq1 b hb
  have hlen2 : (frameStep (frameStep t p1) p2).mFrameResources.length =
      gNumFrameResources := by
    rw [frameStep_slots_length, hlen1]
  have hcap2 : ∀ fr ∈ (frameStep (frameStep t p1) p2).mFrameResources,
      m0.MatCBIndex < fr.MaterialCB.capacity :=
    frameStep_matCap _ p2 _ hidx2 hcap1
  have hidx3 : acquireIndex (frameStep (frameStep t p1) p2) <
      (frameStep (frameStep t p1) p2).mFrameResources.length := by
    rw [hlen2]
    exact acquireIndex_lt _
  obtain ⟨fr3, hfr3get, hfr3read⟩ :=
    frameWriteMat_read (frameStep (frameStep t p1) p2) p3
      ((xs.map (refreshEntity matKind)).map (refreshEntity matKind))
      ((ys.map (refreshEntity matKind)).map (refreshEntity matKind))
      (refreshEntity matKind (refreshEntity matKind m0)) hsplit2 hd2
      huniq2 hidx3
      (by rw [hi2]
          exact hcap2 _ (currFrameResource_mem _ hidx3))
  rw [hi2] at hfr3read
  rw [show matKind.record (refreshEntity matKind (refreshEntity matKind m0))
      = matKind.record m0 by
    rw [matKind_record_refreshEntity, matKind_record_refreshEntity]]
    at hfr3read
  -- the three acquired slots are pairwise distinct and cover all of 0,1,2
  have hcur1 : (frameStep t p1).mCurrFrameResourceIndex = acquireIndex t :=
    frameStep_cursor t p1
  have hcur2 : (frameStep (frameStep t p1) p2).mCurrFrameResourceIndex =
      acquireIndex (frameStep t p1) := frameStep_cursor _ p2
  have ha1 : acquireIndex t = (t.mCurrFrameResourceIndex + 1) % 3 := rfl
  have ha2 : acquireIndex (frameStep t p1) = (acquireIndex t + 1) % 3 := by
    show (((frameStep t p1).mCurrFrameResourceIndex) + 1) %
      gNumFrameResources = _
    rw [hcur1]
    rfl
  have ha3 : acquireIndex (frameStep (frameStep t p1) p2) =
      ((acquireIndex t + 1) % 3 + 1) % 3 := by
    show (((frameStep (frameStep t p1) p2).mCurrFrameResourceIndex) + 1) %
      gNumFrameResources = _
    rw [hcur2, ha2]
    rfl
  -- final slot contents
  intro fr hfr
  obtain ⟨n, hn⟩ := List.mem_iff_get?.mp hfr
  have hlen3 :
      (frameStep (frameStep (frameStep t p1) p2) p3).mFrameResources.length
        = gNumFrameResources := by
    rw [frameStep_slots_length, hlen2]
  have hn3 : n < 3 := by
    have := List.get?_eq_some.mp hn
    obtain ⟨hlt, _⟩ := this
    rw [hlen3] at hlt
    exact hlt
  have hcases : n = acquireIndex t ∨ n = acquireIndex (frameStep t p1) ∨
      n = acquireIndex (frameStep (frameStep t p1) p2) := by
    rw [ha1, ha2, ha3]
    omega
  rcases hcases with hc | hc | hc
  · subst hc
    rw [frameStep_slot_other _ p3 _ (by
        rw [ha3, ha1]
        omega),
      frameStep_slot_other _ p2 _ (by
        rw [ha2]
        omega),
      hfr1get] at hn
    cases hn
    exact hfr1read
  · subst hc
    rw [frameStep_slot_other _ p3 _ (by
        rw [ha3, ha2]
        omega),
      hfr2get] at hn
    cases hn
    exact hfr2read
  · subst hc
    rw [hfr3get] at hn
    cases hn
    exact hfr3read

/-- Rendering three consecutive frames from a state whose item list contains a
drawable `e0` with a full dirty count, whose index no later item shares and
which is in range of every slot's object buffer, leaves `e0`'s record in
every slot's object buffer. -/
theorem three_frames_converge (t : AppState) (xs ys : List RenderItem)
    (e0 : RenderItem) (p1 p2 p3 : PassConstants)
    (hlen : t.mFrameResources.length = gNumFrameResources)
    (hsplit : t.mAllRitems = xs ++ e0 :: ys)
    (hdirty : e0.NumFramesDirty = (gNumFrameResources : Int))
    (huniq : ∀ a ∈ ys, a.ObjCBIndex ≠ e0.ObjCBIndex)
    (hcap : ∀ fr ∈ t.mFrameResources, e0.ObjCBIndex < fr.ObjectCB.capacity) :
    ∀ fr ∈ (frameStep (frameStep (frameStep t p1) p2) p3).mFrameResources,
      fr.ObjectCB.read e0.ObjCBIndex = some (objKind.record e0) := by
  have hidx1 : acquireIndex t < t.mFrameResources.length := by
    rw [hlen]
    exact acquireIndex_lt t
  have hd0 : 0 < e0.NumFramesDirty := by
    rw [hdirty]
    decide
  -- frame 1 writes the acquired slot
  obtain ⟨fr1, hfr1get, hfr1read⟩ :=
    frameWrite_read t p1 xs ys e0 hsplit hd0 huniq hidx1
      (hcap _ (currFrameResource_mem t hidx1))
  -- frame 2
  have he1 : refreshEntity objKind e0 =
      { e0 with NumFramesDirty := e0.NumFramesDirty - 1 } :=
    refreshEntity_objKind_dirty_pos e0 hd0
  have hsplit1 : (frameStep t p1).mAllRitems =
      xs.map (refreshEntity objKind) ++
        refreshEntity objKind e0 :: ys.map (refreshEntity objKind) := by
    rw [frameStep_items, hsplit, List.map_append, List.map_cons]
  have hd1 : 0 < (refreshEntity objKind e0).NumFramesDirty := by
    rw [he1]
    show (0 : Int) < e0.NumFramesDirty - 1
    rw [hdirty]
    decide
  have hi1 : (refreshEntity objKind e0).ObjCBIndex = e0.ObjCBIndex :=
    objKind_index_refreshEntity e0
  have huniq1 : ∀ a ∈ ys.map (refreshEntity objKind),
      a.ObjCBIndex ≠ (refreshEntity objKind e0).ObjCBIndex := by
    intro a ha
    obtain ⟨b, hb, rfl⟩ := List.mem_map.mp ha
    rw [hi1, objKind_index_refreshEntity]
    exact huniq b hb
  have hlen1 : (frameStep t p1).mFrameResources.length =
      gNumFrameResources := by
    rw [frameStep_slots_length, hlen]
  have hcap1 : ∀ fr ∈ (frameStep t p1).mFrameResources,
      e0.ObjCBIndex < fr.ObjectCB.capacity :=
    frameStep_objCap t p1 _ hidx1 hcap
  have hidx2 : acquireIndex (frameStep t p1) <
      (frameStep t p1).mFrameResources.length := by
    rw [hlen1]
    exact acquireIndex_lt _
  obtain ⟨fr2, hfr2get, hfr2read⟩ :=
    frameWrite_read (frameStep t p1) p2 (xs.map (refreshEntity objKind))
      (ys.map (refreshEntity objKind)) (refreshEntity objKind e0) hsplit1
      hd1 huniq1 hidx2
      (by rw [hi1]
          exact hcap1 _ (currFrameResource_mem _ hidx2))
  rw [hi1] at hfr2read
  rw [show objKind.record (refreshEntity objKind e0) = objKind.record e0 from
    objKind_record_refreshEntity e0] at hfr2read
  -- frame 3
  have he2iter : refreshEntity objKind (refreshEntity objKind e0) =
      (refreshEntity objKind)^[2] e0 := by
    rw [Function.iterate_succ_apply, Function.iterate_one]
  have hsplit2 : (frameStep (frameStep t p1) p2).mAllRitems =
      (xs.map (refreshEntity objKind)).map (refreshEntity objKind) ++
        refreshEntity objKind (refreshEntity objKind e0) ::
          (ys.map (refreshEntity objKind)).map (refreshEntity objKind) := by
    rw [frameStep_items, hsplit1, List.map_append, List.map_cons]
  have hd2 : 0 <
      (refreshEntity objKind (refreshEntity objKind e0)).NumFramesDirty := by
    rw [he2iter, iterate_refreshEntity_objKind e0 2 (by
      rw [hdirty]
      decide)]
    show (0 : Int) < e0.NumFramesDirty - 2
    rw [hdirty]
    decide
  have hi2 : (refreshEntity objKind
      (refreshEntity objKind e0)).ObjCBIndex = e0.ObjCBIndex := by
    rw [objKind_index_refreshEntity, hi1]
  have huniq2 : ∀ a ∈ (ys.map (refreshEntity objKind)).map
      (refreshEntity objKind),
      a.ObjCBIndex ≠
        (refreshEntity objKind (refreshEntity objKind e0)).ObjCBIndex := by
    intro a ha
    obtain ⟨b, hb, rfl⟩ := List.mem_map.mp ha
    rw [hi2, objKind_index_refreshEntity, ← hi1]
    exact huniq1 b hb
  have hlen2 : (frameStep (frameStep t p1) p2).mFrameResources.length =
      gNumFrameResources := by
    rw [frameStep_slots_length, hlen1]
  have hcap2 : ∀ fr ∈ (frameStep (frameStep t p1) p2).mFrameResources,
      e0.ObjCBIndex < fr.ObjectCB.capacity :=
    frameStep_objCap _ p2 _ hidx2 hcap1
  have hidx3 : acquireIndex (frameStep (frameStep t p1) p2) <
      (frameStep (frameStep t p1) p2).mFrameResources.length := by
    rw [hlen2]
    exact acquireIndex_lt _
  obtain ⟨fr3, hfr3get, hfr3read⟩ :=
    frameWrite_read (frameStep (frameStep t p1) p2) p3
      ((xs.map (refreshEntity objKind)).map (refreshEntity objKind))
      ((ys.map (refreshEntity objKind)).map (refreshEntity objKind))
      (refreshEntity objKind (refreshEntity objKind e0)) hsplit2 hd2
      huniq2 hidx3
      (by rw [hi2]
          exact hcap2 _ (currFrameResource_mem _ hidx3))
  rw [hi2] at hfr3read
  rw [show objKind.record (refreshEntity objKind (refreshEntity objKind e0))
      = objKind.record e0 by
    rw [objKind_record_refreshEntity, objKind_record_refreshEntity]]
    at hfr3read
  -- the three acquired slots are pairwise distinct and cover all of 0,1,2
  have hcur1 : (frameStep t p1).mCurrFrameResourceIndex = acquireIndex t :=
    frameStep_cursor t p1
  have hcur2 : (frameStep (frameStep t p1) p2).mCurrFrameResourceIndex =
      acquireIndex (frameStep t p1) := frameStep_cursor _ p2
  have ha1 : acquireIndex t = (t.mCurrFrameResourceIndex + 1) % 3 := rfl
  have ha2 : acquireIndex (frameStep t p1) = (acquireIndex t + 1) % 3 := by
    show (((frameStep t p1).mCurrFrameResourceIndex) + 1) %
      gNumFrameResources = _
    rw [hcur1]
    rfl
  have ha3 : acquireIndex (frameStep (frameStep t p1) p2) =
      ((acquireIndex t + 1) % 3 + 1) % 3 := by
    show (((frameStep (frameStep t p1) p2).mCurrFrameResourceIndex) + 1) %
      gNumFrameResources = _
    rw [hcur2, ha2]
    rfl
  -- final slot contents
  intro fr hfr
  obtain ⟨n, hn⟩ := List.mem_iff_get?.mp hfr
  have hlen3 :
      (frameStep (frameStep (frameStep t p1) p2) p3).mFrameResources.length
        = gNumFrameResources := by
    rw [frameStep_slots_length, hlen2]
  have hn3 : n < 3 := by
    have := List.get?_eq_some.mp hn
    obtain ⟨hlt, _⟩ := this
    rw [hlen3] at hlt
    exact hlt
  have hcases : n = acquireIndex t ∨ n = acquireIndex (frameStep t p1) ∨
      n = acquireIndex (frameStep (frameStep t p1) p2) := by
    rw [ha1, ha2, ha3]
    omega
  rcases hcases with hc | hc | hc
  · -- written in frame 1, untouched by frames 2 and 3
    subst hc
    rw [frameStep_slot_other _ p3 _ (by
        rw [ha3, ha1]
        omega),
      frameStep_slot_other _ p2 _ (by
        rw [ha2]
        omega),
      hfr1get] at hn
    cases hn
    exact hfr1read
  · subst hc
    rw [frameStep_slot_other _ p3 _ (by
        rw [ha3, ha2]
        omega),
      hfr2get] at hn
    cases hn
    exact hfr2read
  · subst hc
    rw [hfr3get] at hn
    cases hn
    exact hfr3read

/-- A minimal concrete application state for the material side of the dirty
convergence claim: no render items, one material with index 0 (dirty, as
freshly constructed), three fresh frame resources sized to the scene. -/
def sampleMatState : AppState where
  mFrameResources := List.replicate gNumFrameResources
    (FrameResource.create 1 0 1)
  mCurrFrameResourceIndex := 0
  mAllRitems := []
  mMaterials := [{ Name := 0, MatCBIndex := 0 }]
  mCurrentFence := 0

/-- C1 (amended) — Dirty convergence for drawables and materials alike,
provided no other entity of the same kind shares E's constant-buffer index
(true of the `Assigment #1` scene, whose 96 object indices and 6 material
indices are pairwise distinct, but violated in the `Lab# 5` scene, see the
counterexample): if `markDirty(E)` happens before frame F and E's
authoritative data is not changed again, then after each of the next
`ringDepth` frames E's counter has dropped by exactly one more (the entity at
E's position is E with counter `ringDepth - k` after `k` frames), each of
those frames' refresh of E makes exactly one `CopyData` call carrying E's
index and record, and after frame `F + ringDepth - 1` every slot's
object/material buffer holds E's record at E's index. -/
theorem claim_C1_dirtyConvergence :
    (∀ (s : AppState) (xs ys : List RenderItem) (e : RenderItem)
        (ps : List PassConstants),
      s.mFrameResources.length = gNumFrameResources →
      s.mAllRitems = xs ++ e :: ys →
      (∀ a ∈ xs ++ ys, a.ObjCBIndex ≠ e.ObjCBIndex) →
      (∀ fr ∈ s.mFrameResources, e.ObjCBIndex < fr.ObjectCB.capacity) →
      ps.length = gNumFrameResources →
      (∀ k, k ≤ gNumFrameResources →
        (runFrames { s with mAllRitems :=
            xs ++ RenderItem.markDirty e :: ys }
            (ps.take k)).mAllRitems.get? xs.length =
          some { RenderItem.markDirty e with
            NumFramesDirty := (gNumFrameResources : Int) - k }) ∧
      (∀ k, k < gNumFrameResources →
        callLog objKind
            [(refreshEntity objKind)^[k] (RenderItem.markDirty e)] =
          [(e.ObjCBIndex, objKind.record (RenderItem.markDirty e))]) ∧
      (∀ fr ∈ (runFrames
          { s with mAllRitems := xs ++ RenderItem.markDirty e :: ys }
          ps).mFrameResources,
        fr.ObjectCB.read e.ObjCBIndex =
          some (objKind.record (RenderItem.markDirty e)))) ∧
    (∀ (s : AppState) (xs ys : List Material) (m : Material)
        (ps : List PassConstants),
      s.mFrameResources.length = gNumFrameResources →
      s.mMaterials = xs ++ m :: ys →
      (∀ a ∈ xs ++ ys, a.MatCBIndex ≠ m.MatCBIndex) →
      (∀ fr ∈ s.mFrameResources, m.MatCBIndex < fr.MaterialCB.capacity) →
      ps.length = gNumFrameResources →
      (∀ k, k ≤ gNumFrameResources →
        (runFrames { s with mMaterials :=
            xs ++ Material.markDirty m :: ys }
            (ps.take k)).mMaterials.get? xs.length =
          some { Material.markDirty m with
            NumFramesDirty := (gNumFrameResources : Int) - k }) ∧
      (∀ k, k < gNumFrameResources →
        callLog matKind
            [(refreshEntity matKind)^[k] (Material.markDirty m)] =
          [(m.MatCBIndex, matKind.record (Material.markDirty m))]) ∧
      (∀ fr ∈ (runFrames
          { s with mMaterials := xs ++ Material.markDirty m :: ys }
          ps).mFrameResources,
        fr.MaterialCB.read m.MatCBIndex =
          some (matKind.record (Material.markDirty m)))) := by
  constructor
  · intro s xs ys e ps hslots hsplit huniq hcap hps
    have hd0 : (RenderItem.markDirty e).NumFramesDirty =
        (gNumFrameResources : Int) := rfl
    refine ⟨?_, ?_, ?_⟩
    · intro k hk
      have hlk : (ps.take k).length = k := by
        rw [List.length_take]
        omega
      rw [runFrames_items, hlk]
      show (List.map ((refreshEntity objKind)^[k])
        (xs ++ RenderItem.markDirty e :: ys)).get? xs.length = _
      rw [List.map_append, List.map_cons]
      have hxl : xs.length =
          (xs.map ((refreshEntity objKind)^[k])).length :=
        (List.length_map _ _).symm
      rw [hxl, get?_append_cons]
      rw [iterate_refreshEntity_objKind _ k (by
        rw [hd0]
        exact_mod_cast hk)]
      rfl
    · intro k hk
      have hdk : 0 < objKind.dirty
          ((refreshEntity objKind)^[k] (RenderItem.markDirty e)) := by
        show (0 : Int) <
          ((refreshEntity objKind)^[k]
            (RenderItem.markDirty e)).NumFramesDirty
        rw [iterate_refreshEntity_objKind _ k (by
          rw [hd0]
          exact_mod_cast le_of_lt hk)]
        show (0 : Int) < (RenderItem.markDirty e).NumFramesDirty - k
        rw [hd0]
        have : (k : Int) < (gNumFrameResources : Int) := by
          exact_mod_cast hk
        omega
      rw [callLog_singleton_dirty _ _ hdk]
      have h1 : objKind.index
          ((refreshEntity objKind)^[k] (RenderItem.markDirty e)) =
            e.ObjCBIndex := by
        show ((refreshEntity objKind)^[k]
          (RenderItem.markDirty e)).ObjCBIndex = _
        rw [objIndex_iterate]
        rfl
      rw [h1, objRecord_iterate]
    · rcases ps with _ | ⟨p1, _ | ⟨p2, _ | ⟨p3, _ | ⟨p4, ps'⟩⟩⟩⟩
      · simp [gNumFrameResources] at hps
      · simp [gNumFrameResources] at hps
      · simp [gNumFrameResources] at hps
      · exact three_frames_converge
          { s with mAllRitems := xs ++ RenderItem.markDirty e :: ys }
          xs ys (RenderItem.markDirty e) p1 p2 p3 hslots rfl rfl
          (fun a ha => huniq a (List.mem_append.mpr (Or.inr ha)))
          hcap
      · simp [gNumFrameResources] at hps
  · intro s xs ys m ps hslots hsplit huniq hcap hps
    have hd0 : (Material.markDirty m).NumFramesDirty =
        (gNumFrameResources : Int) := rfl
    refine ⟨?_, ?_, ?_⟩
    · intro k hk
      have hlk : (ps.take k).length = k := by
        rw [List.length_take]
        omega
      rw [runFrames_mats, hlk]
      show (List.map ((refreshEntity matKind)^[k])
        (xs ++ Material.markDirty m :: ys)).get? xs.length = _
      rw [List.map_append, List.map_cons]
      have hxl : xs.length =
          (xs.map ((refreshEntity matKind)^[k])).length :=
        (List.length_map _ _).symm
      rw [hxl, get?_append_cons]
      rw [iterate_refreshEntity_matKind _ k (by
        rw [hd0]
        exact_mod_cast hk)]
      rfl
    · intro k hk
      have hdk : 0 < matKind.dirty
          ((refreshEntity matKind)^[k] (Material.markDirty m)) := by
        show (0 : Int) <
          ((refreshEntity matKind)^[k]
            (Material.markDirty m)).NumFramesDirty
        rw [iterate_refreshEntity_matKind _ k (by
          rw [hd0]
          exact_mod_cast le_of_lt hk)]
        show (0 : Int) < (Material.markDirty m).NumFramesDirty - k
        rw [hd0]
        have : (k : Int) < (gNumFrameResources : Int) := by
          exact_mod_cast hk
        omega
      rw [callLog_singleton_dirty _ _ hdk]
      have h1 : matKind.index
          ((refreshEntity matKind)^[k] (Material.markDirty m)) =
            m.MatCBIndex := by
        show ((refreshEntity matKind)^[k]
          (Material.markDirty m)).MatCBIndex = _
        rw [matIndex_iterate]
        rfl
      rw [h1, matRecord_iterate]
    · rcases ps with _ | ⟨p1, _ | ⟨p2, _ | ⟨p3, _ | ⟨p4, ps'⟩⟩⟩⟩
      · simp [gNumFrameResources] at hps
      · simp [gNumFrameResources] at hps
      · simp [gNumFrameResources] at hps
      · exact three_frames_converge_mat
          { s with mMaterials := xs ++ Material.markDirty m :: ys }
          xs ys (Material.markDirty m) p1 p2 p3 hslots rfl rfl
          (fun a ha => huniq a (List.mem_append.mpr (Or.inr ha)))
          hcap
      · simp [gNumFrameResources] at hps

theorem claim_C1_witness :
    ((runFrames
        { sampleState with mAllRitems :=
            [] ++ RenderItem.markDirty ({ ObjCBIndex := 0 } : RenderItem)
              :: [] }
        [PassConstants.mk 0, PassConstants.mk 0,
          PassConstants.mk 0]).mFrameResources.get
      ⟨0, by decide⟩).ObjectCB.read
        ({ ObjCBIndex := 0 } : RenderItem).ObjCBIndex =
      some (objKind.record
        (RenderItem.markDirty ({ ObjCBIndex := 0 } : RenderItem))) ∧
    ((runFrames
        { sampleMatState with mMaterials :=
            [] ++ (Material.markDirty
              ({ Name := 0, MatCBIndex := 0 } : Material)) :: [] }
        [PassConstants.mk 0, PassConstants.mk 0,
          PassConstants.mk 0]).mFrameResources.get
      ⟨0, by decide⟩).MaterialCB.read
        ({ Name := 0, MatCBIndex := 0 } : Material).MatCBIndex =
      some (matKind.record
        (Material.markDirty ({ Name := 0, MatCBIndex := 0 } : Material))) :=
  ⟨(claim_C1_dirtyConvergence.1 sampleState [] []
      ({ ObjCBIndex := 0 } : RenderItem)
      [PassConstants.mk 0, PassConstants.mk 0, PassConstants.mk 0]
      rfl rfl (by decide) (by decide) rfl).2.2 _
      (List.get_mem _ _ (by decide)),
    (claim_C1_dirtyConvergence.2 sampleMatState [] []
      ({ Name := 0, MatCBIndex := 0 } : Material)
      [PassConstants.mk 0, PassConstants.mk 0, PassConstants.mk 0]
      rfl rfl (by decide) (by decide) rfl).2.2 _
      (List.get_mem _ _ (by decide))⟩

/-- `centerCylinderRitem`'s world matrix in the `Lab# 5` variant
(line 1301): `Scaling(50,1,2) * RotationX(0) * Translation(0,50,0)`, which is
exactly the integer matrix with diagonal (50, 1, 2, 1) and translation row
(0, 50, 0, 1). -/
def centerCylinderWorld : Float4x4 := fun i j =>
  if i = j then (if i.val = 0 then 50 else if i.val = 2 then 2 else 1)
  else if i.val = 3 ∧ j.val = 1 then 50 else 0

/-- `centerCylinderRitem` of the `Lab# 5` variant (lines 1300-1311):
`ObjCBIndex = 3` (line 1303), material stone0 (id 1), shape geometry
(id 0). -/
def centerCylinderRitem : RenderItem :=
  { World := centerCylinderWorld, ObjCBIndex := 3, Mat := 1, Geo := 0 }

/-- `treeSpritesRitem` of the `Lab# 5` variant (lines 2006-2016): identity
world (line 2007) and `ObjCBIndex = 3` (line 2008) — the same index as
`centerCylinderRitem`, and `treeSpritesRitem` comes later in `mAllRitems`. -/
def treeSpritesRitem : RenderItem :=
  { ObjCBIndex := 3, Mat := 4, Geo := 1 }

/-- The `Lab# 5` index collision in isolation: the two render items that both
carry `ObjCBIndex = 3`, in their `mAllRitems` order, with three fresh frame
resources whose object buffers have room for cell 3 (the full scene sizes
them to the whole item count, which also covers cell 3). -/
def lab5CollisionState : AppState where
  mFrameResources := List.replicate gNumFrameResources
    (FrameResource.create 1 4 0)
  mCurrFrameResourceIndex := 0
  mAllRitems := [centerCylinderRitem, treeSpritesRitem]
  mMaterials := []
  mCurrentFence := 0

/-- C1, as stated (without a no-index-sharing proviso), is false on the code:
in the `Lab# 5` scene `treeSpritesRitem` shares `ObjCBIndex = 3` with
`centerCylinderRitem` and is refreshed after it each frame, so after the
three convergence frames every slot's cell 3 holds `treeSpritesRitem`'s
record (identity world), not `centerCylinderRitem`'s (world with entry 50). -/
theorem claim_C1_counterexample :
    ¬ (∀ (s : AppState) (xs ys : List RenderItem) (e : RenderItem)
        (ps : List PassConstants),
        s.mFrameResources.length = gNumFrameResources →
        s.mAllRitems = xs ++ e :: ys →
        (∀ fr ∈ s.mFrameResources,
          e.ObjCBIndex < fr.ObjectCB.capacity) →
        ps.length = gNumFrameResources →
        ∀ fr ∈ (runFrames
            { s with mAllRitems := xs ++ RenderItem.markDirty e :: ys }
            ps).mFrameResources,
          fr.ObjectCB.read e.ObjCBIndex =
            some (objKind.record (RenderItem.markDirty e))) := by
  intro h
  have hres := h lab5CollisionState [] [treeSpritesRitem]
    centerCylinderRitem
    [PassConstants.mk 0, PassConstants.mk 0, PassConstants.mk 0]
    rfl rfl (by decide) rfl
    ((runFrames
      { lab5CollisionState with mAllRitems :=
          [] ++ RenderItem.markDirty centerCylinderRitem ::
            [treeSpritesRitem] }
      [PassConstants.mk 0, PassConstants.mk 0,
        PassConstants.mk 0]).mFrameResources.get ⟨0, by decide⟩)
    (List.get_mem _ _ (by decide))
  exact absurd hres (by decide)

end DXG
